import Mathlib

/-!
Shallow embedding of the batch backfill scripts `batch_fix_recreated.py`
(organization scope) and `network_batch_fix.py` (network scope).

Table rows are records; the relational store is a record of row lists.
Each SQL statement of the source is translated to an executable Lean
function over the store.  Timestamps are naturals; the SQL `::date` cast
is division by the number of seconds in a day.  `uuid4` batch-identifier
generation is modelled by a fresh-identifier counter threaded through the
computation, and `datetime.now()` by a `now` parameter fixed for a pass.
The SQL joins on `geo_question_id` are modelled existentially
(`geo_question_id` is the primary key of `geo_questions`, so a run joins
with at most one question row).
-/

namespace SensoBatch

/-- Calendar day of a timestamp, modelling the SQL `::date` cast. -/
def dayOf (t : Nat) : Nat := t / 86400

/-- Row of the `question_runs` table. -/
structure QuestionRun where
  question_run_id : Nat
  geo_question_id : Nat
  created_at : Nat
  updated_at : Nat
  batch_id : Option Nat
  deleted_at : Option Nat
deriving DecidableEq, Repr

/-- Row of the `geo_questions` table. -/
structure GeoQuestion where
  geo_question_id : Nat
  scope : String
  org_id : Option Nat
  network_id : Option Nat
  deleted_at : Option Nat
deriving DecidableEq, Repr

/-- Row of the `question_run_batches` table.  `started_at` is written by
the upstream pipeline only; neither backfill script ever sets it. -/
structure Batch where
  batch_id : Nat
  scope : String
  org_id : Option Nat
  network_id : Option Nat
  batch_type : String
  status : String
  total_questions : Nat
  completed_questions : Nat
  failed_questions : Nat
  is_latest : Bool
  started_at : Option Nat
  created_at : Nat
  updated_at : Nat
  deleted_at : Option Nat
deriving DecidableEq, Repr

/-- Row of the `orgs` table (fields used by the scripts). -/
structure OrgRow where
  org_id : Nat
  deleted_at : Option Nat
deriving DecidableEq, Repr

/-- Row of the `networks` table (fields used by the scripts). -/
structure NetworkRow where
  network_id : Nat
  deleted_at : Option Nat
deriving DecidableEq, Repr

/-- The relational store: the tables touched by the two scripts. -/
structure Store where
  question_runs : List QuestionRun
  geo_questions : List GeoQuestion
  question_run_batches : List Batch
  orgs : List OrgRow
  networks : List NetworkRow
deriving DecidableEq, Repr

/-- Statistics dictionary of `BatchFixProcessor` / `NetworkBatchFixProcessor`
(`orgs_processed` doubles as `networks_processed` for the network script). -/
structure Stats where
  entities_processed : Nat
  batches_created : Nat
  question_runs_updated : Nat
  total_questions_processed : Nat
  errors : List String
deriving DecidableEq, Repr

/-- All-zero statistics, as initialised by the processor constructors. -/
def emptyStats : Stats := ⟨0, 0, 0, 0, []⟩

/-- Insert into a ≤-sorted list of naturals, keeping it sorted. -/
def insertNat (x : Nat) : List Nat → List Nat
  | [] => [x]
  | y :: ys => if x ≤ y then x :: y :: ys else y :: insertNat x ys

/-- Insertion sort on naturals, modelling SQL `ORDER BY` on an id column. -/
def sortNat : List Nat → List Nat
  | [] => []
  | x :: xs => insertNat x (sortNat xs)

/-- Remove adjacent duplicates; on a sorted list this models SQL `DISTINCT`. -/
def dedupAdj : List Nat → List Nat
  | [] => []
  | [x] => [x]
  | x :: y :: xs => if x = y then dedupAdj (y :: xs) else x :: dedupAdj (y :: xs)

/-- Ordering key of `ORDER BY qr.created_at::date, qr.created_at`. -/
def runLE (a b : QuestionRun) : Bool :=
  decide (dayOf a.created_at < dayOf b.created_at ∨
    (dayOf a.created_at = dayOf b.created_at ∧ a.created_at ≤ b.created_at))

/-- Stable insertion used by `sortRuns`. -/
def insertRun (r : QuestionRun) : List QuestionRun → List QuestionRun
  | [] => [r]
  | x :: xs => if runLE r x then r :: x :: xs else x :: insertRun r xs

/-- Stable sort of runs by `(created_at::date, created_at)`. -/
def sortRuns : List QuestionRun → List QuestionRun
  | [] => []
  | x :: xs => insertRun x (sortRuns xs)

/-- Days occurring in a run list, ascending and deduplicated: the keys of
`sorted(group_runs_by_date(runs).items())`. -/
def runDays (runs : List QuestionRun) : List Nat :=
  dedupAdj (sortNat (runs.map (fun r => dayOf r.created_at)))

/-- The runs of one calendar day, in fetched order: one value of
`group_runs_by_date` (a `defaultdict` keyed by `run_date`). -/
def groupFor (runs : List QuestionRun) (d : Nat) : List QuestionRun :=
  runs.filter (fun r => decide (dayOf r.created_at = d))

end SensoBatch

namespace BatchFixRecreated

open SensoBatch

/-- `get_orgs_with_unbatched_runs`: distinct, ordered org ids of questions
joined to unbatched runs; filters `qr.batch_id IS NULL`,
`gq.org_id IS NOT NULL`, `gq.deleted_at is null`, `qr.deleted_at is null`.
Note: no condition on `gq.scope`. -/
def get_orgs_with_unbatched_runs (s : Store) : List Nat :=
  dedupAdj (sortNat (((s.question_runs.filter
    (fun qr => decide (qr.batch_id = none ∧ qr.deleted_at = none))).map
      (fun qr => s.geo_questions.filterMap (fun gq =>
        if gq.geo_question_id = qr.geo_question_id ∧ gq.deleted_at = none
        then gq.org_id else none))).flatten))

/-- `get_unbatched_runs_for_org`: the unbatched, non-deleted runs whose
non-deleted owning question has the given `org_id`, ordered by
`(created_at::date, created_at)`. -/
def get_unbatched_runs_for_org (s : Store) (org : Nat) : List QuestionRun :=
  sortRuns (s.question_runs.filter (fun qr =>
    decide (qr.batch_id = none ∧ qr.deleted_at = none ∧
      ∃ gq ∈ s.geo_questions, gq.geo_question_id = qr.geo_question_id ∧
        gq.org_id = some org ∧ gq.deleted_at = none)))

/-- `check_existing_batch_for_date`: first non-deleted batch of the org whose
`started_at::date` equals the given day (`NULL::date` matches nothing). -/
def check_existing_batch_for_date (s : Store) (org : Nat) (d : Nat) : Option Nat :=
  (s.question_run_batches.find? (fun b =>
    decide (b.org_id = some org ∧ b.started_at.map dayOf = some d ∧
      b.deleted_at = none))).map (fun b => b.batch_id)

/-- The batch record inserted by `create_batch`: `scope='org'`,
`batch_type='migration'`, `status='completed'`, both question counters equal
to the run count, `failed_questions 0`, `is_latest false`; `started_at` is
not in the insert column list, hence null. -/
def mkNewBatch (org bid now n : Nat) : Batch :=
  { batch_id := bid, scope := "org", org_id := some org, network_id := none,
    batch_type := "migration", status := "completed",
    total_questions := n, completed_questions := n, failed_questions := 0,
    is_latest := false, started_at := none,
    created_at := now, updated_at := now, deleted_at := none }

/-- `create_batch`: synthesize a fresh id; in dry-run return it without any
insert, otherwise insert the new batch row.  Returns (id, store, counter). -/
def create_batch (dry : Bool) (s : Store) (fresh now org : Nat) (_batch_date n : Nat) :
    Nat × Store × Nat :=
  if dry then (fresh, s, fresh + 1)
  else (fresh,
    { s with question_run_batches := s.question_run_batches ++ [mkNewBatch org fresh now n] },
    fresh + 1)

/-- Predicate of the `UPDATE question_runs` statement: listed id and
`deleted_at is null`. -/
def runHit (run_ids : List Nat) (r : QuestionRun) : Bool :=
  decide (r.question_run_id ∈ run_ids ∧ r.deleted_at = none)

/-- Effect of the `UPDATE question_runs` statement on one row. -/
def assignRun (now bid : Nat) (run_ids : List Nat) (r : QuestionRun) : QuestionRun :=
  if runHit run_ids r then { r with batch_id := some bid, updated_at := now } else r

/-- `update_question_runs_with_batch`: in dry-run return the requested count
without mutation; otherwise set `batch_id` and `updated_at` on the listed
non-deleted runs and return the rowcount. -/
def update_question_runs_with_batch (dry : Bool) (s : Store) (now : Nat)
    (runs : List QuestionRun) (bid : Nat) : Nat × Store :=
  if dry then (runs.length, s)
  else
    ((s.question_runs.filter (runHit (runs.map (fun r => r.question_run_id)))).length,
      { s with question_runs :=
          s.question_runs.map (assignRun now bid (runs.map (fun r => r.question_run_id))) })

/-- Fold of `ORDER BY created_at DESC LIMIT 1`: some batch of maximal
`created_at` (ties resolved by list position, as the store may). -/
def pickLatest (bs : List Batch) : Option Batch :=
  bs.foldl (fun acc b =>
    match acc with
    | none => some b
    | some m => if m.created_at < b.created_at then some b else some m) none

/-- Demotion predicate of `update_latest_flags_for_org`: the org's
non-deleted batches. -/
def orgBatchPred (org : Nat) (b : Batch) : Bool :=
  decide (b.org_id = some org ∧ b.deleted_at = none)

/-- Effect of the demotion `UPDATE` of `update_latest_flags_for_org` on one
batch row. -/
def demoteOrg (now org : Nat) (b : Batch) : Batch :=
  if orgBatchPred org b then { b with is_latest := false, updated_at := now } else b

/-- Effect of the promotion `UPDATE` (`WHERE batch_id = ...`) on one row. -/
def promoteBatch (now bid : Nat) (b : Batch) : Batch :=
  if decide (b.batch_id = bid) then { b with is_latest := true, updated_at := now } else b

/-- `update_latest_flags_for_org`: demote every non-deleted batch of the org,
then promote the one with maximal `created_at` (matched by `batch_id`). -/
def update_latest_flags_for_org (dry : Bool) (s : Store) (now org : Nat) : Nat × Store :=
  if dry then (1, s)
  else
    let s1 : Store := { s with
      question_run_batches := s.question_run_batches.map (demoteOrg now org) }
    match pickLatest (s1.question_run_batches.filter (orgBatchPred org)) with
    | none => (0, s1)
    | some m =>
      ((s1.question_run_batches.filter (fun b => decide (b.batch_id = m.batch_id))).length,
        { s1 with question_run_batches :=
            s1.question_run_batches.map (promoteBatch now m.batch_id) })

/-- `check_org_exists`: membership of a non-deleted row in `orgs`. -/
def check_org_exists (s : Store) (org : Nat) : Bool :=
  s.orgs.any (fun o => decide (o.org_id = org ∧ o.deleted_at = none))

/-- Local state of the per-date-group loop of `process_org`: the store plus
the local counters `total_runs_updated`, `batches_created` and the
fresh-identifier counter. -/
structure GroupState where
  store : Store
  total_runs_updated : Nat
  batches_created : Nat
  fresh : Nat
deriving Repr

/-- Body of the `for batch_date, date_runs in sorted(grouped_runs.items())`
loop of `process_org`. -/
def processGroup (dry : Bool) (now org : Nat) (st : GroupState)
    (d : Nat) (date_runs : List QuestionRun) : GroupState :=
  if dry then
    { st with total_runs_updated := st.total_runs_updated + date_runs.length,
              batches_created := st.batches_created + 1 }
  else
    match check_existing_batch_for_date st.store org d with
    | some bid =>
      let u := update_question_runs_with_batch false st.store now date_runs bid
      { st with store := u.2, total_runs_updated := st.total_runs_updated + u.1 }
    | none =>
      let c := create_batch false st.store st.fresh now org d date_runs.length
      let u := update_question_runs_with_batch false c.2.1 now date_runs c.1
      { store := u.2, total_runs_updated := st.total_runs_updated + u.1,
        batches_created := st.batches_created + 1, fresh := c.2.2 }

/-- The whole per-date-group loop, over the ascending list of days. -/
def processGroups (dry : Bool) (now org : Nat) (runs : List QuestionRun) :
    List Nat → GroupState → GroupState
  | [], st => st
  | d :: ds, st => processGroups dry now org runs ds (processGroup dry now org st d (groupFor runs d))

/-- Error string recorded when the org is missing or deleted, mirroring
`f"Org {org_id}: Org {org_id} does not exist or is deleted"`. -/
def orgMissingMsg (org : Nat) : String :=
  "Org " ++ toString org ++ ": Org " ++ toString org ++ " does not exist or is deleted"

/-- Result of `process_org`: its boolean return plus the store, statistics
and fresh-identifier counter it leaves behind. -/
structure OrgResult where
  ok : Bool
  store : Store
  stats : Stats
  fresh : Nat
deriving Repr

/-- `process_org`: existence check, fetch, day-grouped resolve/assign loop,
then latest-flag maintenance (real mode, only when `batches_created > 0`),
then the statistics update. -/
def process_org (dry : Bool) (now : Nat) (s : Store) (stats : Stats)
    (fresh : Nat) (org : Nat) : OrgResult :=
  if check_org_exists s org then
    let runs := get_unbatched_runs_for_org s org
    if runs = [] then { ok := true, store := s, stats := stats, fresh := fresh }
    else
      let st := processGroups dry now org runs (runDays runs) ⟨s, 0, 0, fresh⟩
      let s2 := if dry = false ∧ 0 < st.batches_created
        then (update_latest_flags_for_org false st.store now org).2 else st.store
      { ok := true, store := s2,
        stats := { stats with
          entities_processed := stats.entities_processed + 1,
          batches_created := stats.batches_created + st.batches_created,
          question_runs_updated := stats.question_runs_updated + st.total_runs_updated,
          total_questions_processed := stats.total_questions_processed + st.total_runs_updated },
        fresh := st.fresh }
  else
    { ok := false, store := s,
      stats := { stats with errors := stats.errors ++ [orgMissingMsg org] },
      fresh := fresh }

/-- State threaded through `process_all_orgs`: store, statistics, counter. -/
structure RunState where
  store : Store
  stats : Stats
  fresh : Nat
deriving Repr

/-- The `for org_id in org_ids` loop of `process_all_orgs`: on success the
per-org transaction commits, on failure it rolls back (store unchanged);
the in-memory statistics survive either way. -/
def process_org_list (dry : Bool) (now : Nat) : List Nat → RunState → RunState
  | [], rs => rs
  | org :: rest, rs =>
    let r := process_org dry now rs.store rs.stats rs.fresh org
    process_org_list dry now rest ⟨if r.ok then r.store else rs.store, r.stats, r.fresh⟩

/-- `process_all_orgs`: enumerate the orgs with unbatched runs and process
each in turn, starting from freshly zeroed statistics. -/
def process_all_orgs (dry : Bool) (now fresh : Nat) (s : Store) : RunState :=
  process_org_list dry now (get_orgs_with_unbatched_runs s) ⟨s, emptyStats, fresh⟩

end BatchFixRecreated

namespace NetworkBatchFix

open SensoBatch

/-- `get_networks_with_unbatched_runs`: distinct, ordered network ids of
network-scoped questions joined to unbatched runs; filters
`qr.batch_id IS NULL`, `gq.network_id IS NOT NULL`, `gq.scope = 'network'`.
Note: no `deleted_at` condition on either table. -/
def get_networks_with_unbatched_runs (s : Store) : List Nat :=
  dedupAdj (sortNat (((s.question_runs.filter
    (fun qr => decide (qr.batch_id = none))).map
      (fun qr => s.geo_questions.filterMap (fun gq =>
        if gq.geo_question_id = qr.geo_question_id ∧ gq.scope = "network"
        then gq.network_id else none))).flatten))

/-- `get_unbatched_runs_for_network`: the unbatched runs whose owning
question is network-scoped with the given `network_id`, ordered by
`(created_at::date, created_at)`.  No `deleted_at` conditions. -/
def get_unbatched_runs_for_network (s : Store) (nid : Nat) : List QuestionRun :=
  sortRuns (s.question_runs.filter (fun qr =>
    decide (qr.batch_id = none ∧
      ∃ gq ∈ s.geo_questions, gq.geo_question_id = qr.geo_question_id ∧
        gq.network_id = some nid ∧ gq.scope = "network")))

/-- `check_existing_batch_for_date` (network): first network-scoped batch of
the network whose `created_at::date` equals the given day.  No `deleted_at`
condition. -/
def check_existing_batch_for_date (s : Store) (nid : Nat) (d : Nat) : Option Nat :=
  (s.question_run_batches.find? (fun b =>
    decide (b.network_id = some nid ∧ dayOf b.created_at = d ∧
      b.scope = "network"))).map (fun b => b.batch_id)

/-- The batch record inserted by the network `create_batch`:
`scope='network'`, otherwise the same columns as the org variant. -/
def mkNewBatch (nid bid now n : Nat) : Batch :=
  { batch_id := bid, scope := "network", org_id := none, network_id := some nid,
    batch_type := "migration", status := "completed",
    total_questions := n, completed_questions := n, failed_questions := 0,
    is_latest := false, started_at := none,
    created_at := now, updated_at := now, deleted_at := none }

/-- `create_batch` (network): as the org variant with `scope='network'`. -/
def create_batch (dry : Bool) (s : Store) (fresh now nid : Nat) (_batch_date n : Nat) :
    Nat × Store × Nat :=
  if dry then (fresh, s, fresh + 1)
  else (fresh,
    { s with question_run_batches := s.question_run_batches ++ [mkNewBatch nid fresh now n] },
    fresh + 1)

/-- Predicate of the network `UPDATE question_runs` statement: listed id
only — there is no `deleted_at is null` condition in this variant. -/
def runHit (run_ids : List Nat) (r : QuestionRun) : Bool :=
  decide (r.question_run_id ∈ run_ids)

/-- Effect of the network `UPDATE question_runs` statement on one row. -/
def assignRun (now bid : Nat) (run_ids : List Nat) (r : QuestionRun) : QuestionRun :=
  if runHit run_ids r then { r with batch_id := some bid, updated_at := now } else r

/-- `update_question_runs_with_batch` (network): in dry-run return the
requested count without mutation; otherwise set `batch_id` and `updated_at`
on every listed run, soft-deleted or not, and return the rowcount. -/
def update_question_runs_with_batch (dry : Bool) (s : Store) (now : Nat)
    (runs : List QuestionRun) (bid : Nat) : Nat × Store :=
  if dry then (runs.length, s)
  else
    ((s.question_runs.filter (runHit (runs.map (fun r => r.question_run_id)))).length,
      { s with question_runs :=
          s.question_runs.map (assignRun now bid (runs.map (fun r => r.question_run_id))) })

/-- Demotion predicate of `update_latest_flags_for_network`: the network's
network-scoped batches (no `deleted_at` condition). -/
def netBatchPred (nid : Nat) (b : Batch) : Bool :=
  decide (b.network_id = some nid ∧ b.scope = "network")

/-- Effect of the network demotion `UPDATE` on one batch row. -/
def demoteNet (now nid : Nat) (b : Batch) : Batch :=
  if netBatchPred nid b then { b with is_latest := false, updated_at := now } else b

/-- `update_latest_flags_for_network`: demote every network-scoped batch of
the network, then promote the one with maximal `created_at`. -/
def update_latest_flags_for_network (dry : Bool) (s : Store) (now nid : Nat) : Nat × Store :=
  if dry then (1, s)
  else
    let s1 : Store := { s with
      question_run_batches := s.question_run_batches.map (demoteNet now nid) }
    match BatchFixRecreated.pickLatest (s1.question_run_batches.filter (netBatchPred nid)) with
    | none => (0, s1)
    | some m =>
      ((s1.question_run_batches.filter (fun b => decide (b.batch_id = m.batch_id))).length,
        { s1 with question_run_batches :=
            s1.question_run_batches.map (BatchFixRecreated.promoteBatch now m.batch_id) })

/-- `check_network_exists`: membership of a non-deleted row in `networks`. -/
def check_network_exists (s : Store) (nid : Nat) : Bool :=
  s.networks.any (fun o => decide (o.network_id = nid ∧ o.deleted_at = none))

/-- Body of the per-date-group loop of `process_network`. -/
def processGroup (dry : Bool) (now nid : Nat) (st : BatchFixRecreated.GroupState)
    (d : Nat) (date_runs : List QuestionRun) : BatchFixRecreated.GroupState :=
  if dry then
    { st with total_runs_updated := st.total_runs_updated + date_runs.length,
              batches_created := st.batches_created + 1 }
  else
    match check_existing_batch_for_date st.store nid d with
    | some bid =>
      let u := update_question_runs_with_batch false st.store now date_runs bid
      { st with store := u.2, total_runs_updated := st.total_runs_updated + u.1 }
    | none =>
      let c := create_batch false st.store st.fresh now nid d date_runs.length
      let u := update_question_runs_with_batch false c.2.1 now date_runs c.1
      { store := u.2, total_runs_updated := st.total_runs_updated + u.1,
        batches_created := st.batches_created + 1, fresh := c.2.2 }

/-- The whole per-date-group loop of `process_network`. -/
def processGroups (dry : Bool) (now nid : Nat) (runs : List QuestionRun) :
    List Nat → BatchFixRecreated.GroupState → BatchFixRecreated.GroupState
  | [], st => st
  | d :: ds, st => processGroups dry now nid runs ds (processGroup dry now nid st d (groupFor runs d))

/-- Error string recorded when the network is missing or deleted. -/
def netMissingMsg (nid : Nat) : String :=
  "Network " ++ toString nid ++ ": Network " ++ toString nid ++ " does not exist or is deleted"

/-- `process_network`: existence check, fetch, day-grouped resolve/assign
loop, latest-flag maintenance (real mode, only when `batches_created > 0`),
then the statistics update. -/
def process_network (dry : Bool) (now : Nat) (s : Store) (stats : Stats)
    (fresh : Nat) (nid : Nat) : BatchFixRecreated.OrgResult :=
  if check_network_exists s nid then
    let runs := get_unbatched_runs_for_network s nid
    if runs = [] then { ok := true, store := s, stats := stats, fresh := fresh }
    else
      let st := processGroups dry now nid runs (runDays runs) ⟨s, 0, 0, fresh⟩
      let s2 := if dry = false ∧ 0 < st.batches_created
        then (update_latest_flags_for_network false st.store now nid).2 else st.store
      { ok := true, store := s2,
        stats := { stats with
          entities_processed := stats.entities_processed + 1,
          batches_created := stats.batches_created + st.batches_created,
          question_runs_updated := stats.question_runs_updated + st.total_runs_updated,
          total_questions_processed := stats.total_questions_processed + st.total_runs_updated },
        fresh := st.fresh }
  else
    { ok := false, store := s,
      stats := { stats with errors := stats.errors ++ [netMissingMsg nid] },
      fresh := fresh }

/-- The `for network_id in network_ids` loop of `process_all_networks`. -/
def process_network_list (dry : Bool) (now : Nat) :
    List Nat → BatchFixRecreated.RunState → BatchFixRecreated.RunState
  | [], rs => rs
  | nid :: rest, rs =>
    let r := process_network dry now rs.store rs.stats rs.fresh nid
    process_network_list dry now rest ⟨if r.ok then r.store else rs.store, r.stats, r.fresh⟩

/-- `process_all_networks`: enumerate and process every network. -/
def process_all_networks (dry : Bool) (now fresh : Nat) (s : Store) : BatchFixRecreated.RunState :=
  process_network_list dry now (get_networks_with_unbatched_runs s) ⟨s, emptyStats, fresh⟩

end NetworkBatchFix

namespace SensoBatch

open BatchFixRecreated

/-- Field preservation of a run row across a pass: the scripts only ever
set `batch_id` (never clear it) and refresh `updated_at`. -/
def runPres (r r' : QuestionRun) : Prop :=
  r'.question_run_id = r.question_run_id ∧ r'.geo_question_id = r.geo_question_id ∧
  r'.created_at = r.created_at ∧ r'.deleted_at = r.deleted_at ∧
  (r'.batch_id = r.batch_id ∨ ∃ b, r'.batch_id = some b)

/-- Store evolution across (any part of) a real org pass: questions, orgs
and networks untouched; runs evolve row by row via `runPres`. -/
def storeEvolves (s s' : Store) : Prop :=
  s'.geo_questions = s.geo_questions ∧ s'.orgs = s.orgs ∧ s'.networks = s.networks ∧
  List.Forall₂ runPres s.question_runs s'.question_runs

/-- No run of the given org is still eligible and unbatched in the store. -/
def noEligibleUnbatched (t : Store) (o : Nat) : Prop :=
  ∀ r ∈ t.question_runs, r.deleted_at = none →
    (∃ gq ∈ t.geo_questions, gq.geo_question_id = r.geo_question_id ∧
      gq.org_id = some o ∧ gq.deleted_at = none) → r.batch_id ≠ none

/-- Creation-time fields of a batch inserted by the org `create_batch`
(everything except the identifier and the two question counters). -/
def newBatchFields (org now : Nat) (b : Batch) : Prop :=
  b.scope = "org" ∧ b.org_id = some org ∧ b.network_id = none ∧
  b.batch_type = "migration" ∧ b.status = "completed" ∧
  b.completed_questions = b.total_questions ∧ b.failed_questions = 0 ∧
  b.is_latest = false ∧ b.started_at = none ∧ b.created_at = now ∧
  b.deleted_at = none

/-- Row-wise relation maintained by the real-mode per-day loop after the
days in `dsDone` have been handled: fields preserved, and `batch_id` either
untouched or set (while the day was handled) to an identifier below the
current fresh counter. -/
def heavyRel (runs : List QuestionRun) (dsDone : List Nat) (curFresh : Nat)
    (r r' : QuestionRun) : Prop :=
  r'.question_run_id = r.question_run_id ∧ r'.geo_question_id = r.geo_question_id ∧
  r'.created_at = r.created_at ∧ r'.deleted_at = r.deleted_at ∧
  (r'.batch_id = r.batch_id ∨
    (r ∈ runs ∧ dayOf r.created_at ∈ dsDone ∧ ∃ b, r'.batch_id = some b ∧ b < curFresh))

/-- Invariant of the real-mode per-day loop of `process_org`, relative to
the store `s` at the start of the org's processing, after the days in
`dsDone` have been handled. -/
def LoopInv (s : Store) (org now fresh0 : Nat) (runs : List QuestionRun)
    (dsDone : List Nat) (st : GroupState) : Prop :=
  st.store.geo_questions = s.geo_questions ∧
  st.store.orgs = s.orgs ∧ st.store.networks = s.networks ∧
  fresh0 ≤ st.fresh ∧
  (∃ nb : List Batch, st.store.question_run_batches = s.question_run_batches ++ nb ∧
    nb.length = st.batches_created ∧
    ∀ b ∈ nb, newBatchFields org now b ∧ fresh0 ≤ b.batch_id ∧ b.batch_id < st.fresh ∧
      b.total_questions = st.store.question_runs.countP
        (fun r => decide (r.batch_id = some b.batch_id))) ∧
  (st.store.question_run_batches.map (fun b => b.batch_id)).Nodup ∧
  (∀ b ∈ st.store.question_run_batches, b.batch_id < st.fresh) ∧
  List.Forall₂ (heavyRel runs dsDone st.fresh) s.question_runs st.store.question_runs ∧
  st.total_runs_updated = (dsDone.map (fun d => (groupFor runs d).length)).sum ∧
  st.batches_created = dsDone.countP
    (fun d => (check_existing_batch_for_date s org d).isNone)

/-- Eligibility of a run for org-scope reconciliation, following the words
of the specification: non-deleted run, non-deleted owning question with the
requested org, null `batch_id`, and the owning question's scope kind equal
to the requested kind `org`.  Declared for comparison with
`get_orgs_with_unbatched_runs` / `get_unbatched_runs_for_org`, which apply
no scope-kind condition. -/
def specOrgEligibleRun (s : Store) (o : Nat) (qr : QuestionRun) : Bool :=
  decide (qr.batch_id = none ∧ qr.deleted_at = none ∧
    ∃ gq ∈ s.geo_questions, gq.geo_question_id = qr.geo_question_id ∧
      gq.deleted_at = none ∧ gq.scope = "org" ∧ gq.org_id = some o)

/-- Eligibility of a run for network-scope reconciliation per the
specification: non-deleted run, non-deleted owning question with the
requested network and scope kind `network`, null `batch_id`.  Declared for
comparison with the network queries, which apply no deletion conditions. -/
def specNetEligibleRun (s : Store) (n : Nat) (qr : QuestionRun) : Bool :=
  decide (qr.batch_id = none ∧ qr.deleted_at = none ∧
    ∃ gq ∈ s.geo_questions, gq.geo_question_id = qr.geo_question_id ∧
      gq.deleted_at = none ∧ gq.scope = "network" ∧ gq.network_id = some n)

/-- Store with one org, one unbatched day-5 run, and one pre-existing
non-deleted batch for (org 1, day 5) keyed by `started_at`, as the upstream
pipeline writes it.  A real pass reuses the batch, so `batches_created`
stays 0 and latest-flag maintenance is skipped. -/
def ce1Store : Store :=
  { question_runs := [⟨100, 10, 432100, 432100, none, none⟩],
    geo_questions := [⟨10, "org", some 1, none, none⟩],
    question_run_batches :=
      [⟨50, "org", some 1, none, "migration", "completed", 1, 1, 0, false,
        some 432050, 432060, 432060, none⟩],
    orgs := [⟨1, none⟩], networks := [] }

/-- Store with one org and one unbatched day-5 run and no batches: the
starting point of the two-pass duplicate-batch scenario. -/
def c5Store0 : Store :=
  { question_runs := [⟨100, 10, 432000, 432000, none, none⟩],
    geo_questions := [⟨10, "org", some 1, none, none⟩],
    question_run_batches := [], orgs := [⟨1, none⟩], networks := [] }

/-- Store after a first full real pass over `c5Store0`. -/
def c5Store1 : Store := (process_all_orgs false 864000000 1000 c5Store0).store

/-- A second day-5 run written by the upstream system after the first pass. -/
def c5Run2 : QuestionRun := ⟨101, 10, 432010, 432010, none, none⟩

/-- `c5Store1` with the new unbatched day-5 run added. -/
def c5Store1x : Store :=
  { c5Store1 with question_runs := c5Store1.question_runs ++ [c5Run2] }

/-- Store after the second full real pass. -/
def c5Store2 : Store := (process_all_orgs false 864086400 2000 c5Store1x).store

/-- Store whose only non-deleted unbatched run belongs to a network-scoped
question that also carries an `org_id`, plus a soft-deleted unbatched run of
a network-scoped question. -/
def ce6Store : Store :=
  { question_runs := [⟨200, 20, 100, 100, none, none⟩, ⟨201, 21, 100, 100, none, some 999⟩],
    geo_questions := [⟨20, "network", some 3, some 7, none⟩, ⟨21, "network", none, some 8, none⟩],
    question_run_batches := [], orgs := [], networks := [] }

/-- A soft-deleted unbatched run. -/
def ce8Run : QuestionRun := ⟨300, 30, 0, 0, none, some 5⟩

/-- Store holding only the soft-deleted run `ce8Run`. -/
def ce8Store : Store :=
  { question_runs := [ce8Run], geo_questions := [], question_run_batches := [],
    orgs := [], networks := [] }

/-- Store with an existing org and network but no runs at all, so both
fetches return the empty list. -/
def w10Store : Store :=
  { question_runs := [], geo_questions := [],
    question_run_batches := [], orgs := [⟨1, none⟩], networks := [⟨2, none⟩] }

/-- Store with runs for three orgs (1, 2 and 3) of which org 2 has no row
in the `orgs` table: processing org 2 fails while orgs 1 and 3 commit. -/
def w7Store : Store :=
  { question_runs := [⟨110, 11, 432000, 432000, none, none⟩,
                      ⟨120, 12, 432000, 432000, none, none⟩,
                      ⟨130, 13, 432000, 432000, none, none⟩],
    geo_questions := [⟨11, "org", some 1, none, none⟩,
                      ⟨12, "org", some 2, none, none⟩,
                      ⟨13, "org", some 3, none, none⟩],
    question_run_batches := [], orgs := [⟨1, none⟩, ⟨3, none⟩], networks := [] }

theorem mem_insertNat {a x : Nat} {l : List Nat} :
    a ∈ insertNat x l ↔ a = x ∨ a ∈ l := by
  induction l with
  | nil => simp [insertNat]
  | cons y ys ih =>
    simp only [insertNat]
    split
    · simp [List.mem_cons]
    · simp only [List.mem_cons, ih]
      tauto

theorem insertNat_perm (x : Nat) (l : List Nat) :
    (insertNat x l).Perm (x :: l) := by
  induction l with
  | nil => simp [insertNat]
  | cons y ys ih =>
    simp only [insertNat]
    split
    · exact List.Perm.refl _
    · exact (List.Perm.cons y ih).trans (List.Perm.swap x y ys)

theorem sortNat_perm (l : List Nat) : (sortNat l).Perm l := by
  induction l with
  | nil => simp [sortNat]
  | cons x xs ih => exact (insertNat_perm x (sortNat xs)).trans (List.Perm.cons x ih)

theorem mem_sortNat {a : Nat} {l : List Nat} : a ∈ sortNat l ↔ a ∈ l :=
  (sortNat_perm l).mem_iff

theorem sorted_insertNat {x : Nat} {l : List Nat}
    (h : List.Sorted (· ≤ ·) l) : List.Sorted (· ≤ ·) (insertNat x l) := by
  induction l with
  | nil => simp [insertNat]
  | cons y ys ih =>
    rw [List.sorted_cons] at h
    simp only [insertNat]
    split
    · rw [List.sorted_cons]
      refine ⟨fun b hb => ?_, List.sorted_cons.mpr h⟩
      rcases List.mem_cons.mp hb with rfl | hb
      · omega
      · exact le_trans (by omega) (h.1 b hb)
    · rw [List.sorted_cons]
      refine ⟨fun b hb => ?_, ih h.2⟩
      rcases mem_insertNat.mp hb with rfl | hb
      · omega
      · exact h.1 b hb

theorem sorted_sortNat (l : List Nat) : List.Sorted (· ≤ ·) (sortNat l) := by
  induction l with
  | nil => simp [sortNat]
  | cons x xs ih => exact sorted_insertNat ih

theorem mem_dedupAdj {a : Nat} {l : List Nat} : a ∈ dedupAdj l ↔ a ∈ l := by
  induction l with
  | nil => simp [dedupAdj]
  | cons x xs ih =>
    match xs, ih with
    | [], _ => simp [dedupAdj]
    | y :: ys, ih =>
      simp only [dedupAdj]
      split
      · rename_i hxy
        subst hxy
        rw [ih]
        simp only [List.mem_cons]
        tauto
      · simp only [List.mem_cons] at ih ⊢
        rw [ih]

theorem sorted_lt_dedupAdj {l : List Nat} (h : List.Sorted (· ≤ ·) l) :
    List.Sorted (· < ·) (dedupAdj l) := by
  induction l with
  | nil => simp [dedupAdj]
  | cons x xs ih =>
    match xs, ih with
    | [], _ => simp [dedupAdj]
    | y :: ys, ih =>
      rw [List.sorted_cons] at h
      simp only [dedupAdj]
      split
      · exact ih h.2
      · rename_i hxy
        rw [List.sorted_cons]
        refine ⟨fun b hb => ?_, ih h.2⟩
        have hb' : b ∈ y :: ys := mem_dedupAdj.mp hb
        have hxb : x ≤ b := h.1 b hb'
        have hxy' : x ≤ y := h.1 y (List.mem_cons_self y ys)
        rcases List.mem_cons.mp hb' with rfl | hb''
        · omega
        · have := List.sorted_cons.mp h.2
          have hyb : y ≤ b := this.1 b hb''
          omega

theorem nodup_dedupAdj {l : List Nat} (h : List.Sorted (· ≤ ·) l) :
    (dedupAdj l).Nodup :=
  (sorted_lt_dedupAdj h).nodup

theorem insertRun_perm (r : QuestionRun) (l : List QuestionRun) :
    (insertRun r l).Perm (r :: l) := by
  induction l with
  | nil => simp [insertRun]
  | cons x xs ih =>
    simp only [insertRun]
    split
    · exact List.Perm.refl _
    · exact (List.Perm.cons x ih).trans (List.Perm.swap r x xs)

theorem sortRuns_perm (l : List QuestionRun) : (sortRuns l).Perm l := by
  induction l with
  | nil => simp [sortRuns]
  | cons x xs ih => exact (insertRun_perm x (sortRuns xs)).trans (List.Perm.cons x ih)

theorem mem_sortRuns {r : QuestionRun} {l : List QuestionRun} :
    r ∈ sortRuns l ↔ r ∈ l :=
  (sortRuns_perm l).mem_iff

theorem mem_groupFor {r : QuestionRun} {runs : List QuestionRun} {d : Nat} :
    r ∈ groupFor runs d ↔ r ∈ runs ∧ dayOf r.created_at = d := by
  simp [groupFor, List.mem_filter]

theorem mem_runDays {d : Nat} {runs : List QuestionRun} :
    d ∈ runDays runs ↔ ∃ r ∈ runs, dayOf r.created_at = d := by
  simp only [runDays, mem_dedupAdj, mem_sortNat, List.mem_map]

theorem runDays_nodup (runs : List QuestionRun) : (runDays runs).Nodup :=
  nodup_dedupAdj (sorted_sortNat _)

theorem groupFor_sublist (runs : List QuestionRun) (d : Nat) :
    (groupFor runs d).Sublist runs :=
  List.filter_sublist runs

theorem forall₂_mem_right {α β : Type} {R : α → β → Prop} :
    ∀ {l₁ : List α} {l₂ : List β}, List.Forall₂ R l₁ l₂ → ∀ b ∈ l₂, ∃ a ∈ l₁, R a b := by
  intro l₁ l₂ h
  induction h with
  | nil => intro b hb; cases hb
  | cons hR _ ih =>
    intro b hb
    rcases List.mem_cons.mp hb with rfl | hb'
    · exact ⟨_, List.mem_cons_self _ _, hR⟩
    · obtain ⟨a, ha, hab⟩ := ih b hb'
      exact ⟨a, List.mem_cons_of_mem _ ha, hab⟩

theorem forall₂_map_eq {α β : Type} {R : α → β → Prop} (f : α → Nat) (g : β → Nat)
    (hfg : ∀ a b, R a b → g b = f a) :
    ∀ {l₁ : List α} {l₂ : List β}, List.Forall₂ R l₁ l₂ → l₂.map g = l₁.map f := by
  intro l₁ l₂ h
  induction h with
  | nil => rfl
  | cons hR _ ih => simp only [List.map_cons, ih, hfg _ _ hR]

theorem countP_split_disjoint {α : Type} (p q : α → Bool) (l : List α)
    (h : ∀ a ∈ l, ¬(p a = true ∧ q a = true)) :
    l.countP (fun a => p a || q a) = l.countP p + l.countP q := by
  induction l with
  | nil => simp
  | cons x xs ih =>
    simp only [List.countP_cons]
    rw [ih (fun a ha => h a (List.mem_cons_of_mem _ ha))]
    have hx := h x (List.mem_cons_self _ _)
    cases hp : p x <;> cases hq : q x <;> simp_all <;> omega

theorem countP_eq_one_of_nodup {L : List Nat} {i : Nat} (h : L.Nodup) (hi : i ∈ L) :
    L.countP (fun x => decide (x = i)) = 1 := by
  have hc := List.count_eq_one_of_mem h hi
  rw [List.count_eq_countP] at hc
  rw [← hc]
  apply List.countP_congr
  intro x _
  simp only [decide_eq_true_eq, beq_iff_eq]

theorem countP_ids_nodup {L : List Nat} : ∀ {ids : List Nat}, L.Nodup → ids.Nodup →
    ids ⊆ L → L.countP (fun i => decide (i ∈ ids)) = ids.length := by
  intro ids
  induction ids with
  | nil => intro _ _ _; simp
  | cons i is ih =>
    intro hL hid hsub
    have hnotin : i ∉ is := (List.nodup_cons.mp hid).1
    have hstep : L.countP (fun a => decide (a ∈ i :: is))
        = L.countP (fun a => decide (a = i) || decide (a ∈ is)) := by
      apply List.countP_congr
      intro x _
      simp [List.mem_cons]
    rw [hstep, countP_split_disjoint]
    · rw [countP_eq_one_of_nodup hL (hsub (List.mem_cons_self _ _)),
        ih hL (List.nodup_cons.mp hid).2 (fun a ha => hsub (List.mem_cons_of_mem _ ha))]
      simp [List.length_cons, Nat.add_comm]
    · intro a _ hcon
      simp only [decide_eq_true_eq] at hcon
      exact hnotin (hcon.1 ▸ hcon.2)

theorem countP_proj_eq_one {α : Type} (f : α → Nat) {l : List α} {i : Nat}
    (h : (l.map f).Nodup) (hi : i ∈ l.map f) :
    l.countP (fun a => decide (f a = i)) = 1 := by
  have h1 := countP_eq_one_of_nodup h hi
  rw [List.countP_map] at h1
  exact h1

theorem countP_proj_mem {α : Type} (f : α → Nat) {l : List α} {ids : List Nat}
    (h : (l.map f).Nodup) (hid : ids.Nodup) (hsub : ids ⊆ l.map f) :
    l.countP (fun a => decide (f a ∈ ids)) = ids.length := by
  have h1 := countP_ids_nodup (L := l.map f) h hid hsub
  rw [List.countP_map] at h1
  exact h1

theorem sum_groupFor {ds : List Nat} : ∀ {runs : List QuestionRun}, ds.Nodup →
    (∀ r ∈ runs, dayOf r.created_at ∈ ds) →
    (ds.map (fun d => (groupFor runs d).length)).sum = runs.length := by
  induction ds with
  | nil =>
    intro runs _ hcov
    cases runs with
    | nil => simp
    | cons r rs => exact absurd (hcov r (by simp)) (by simp)
  | cons d rest ih =>
    intro runs hnd hcov
    simp only [List.map_cons, List.sum_cons]
    have key : ∀ d' ∈ rest, groupFor runs d'
        = groupFor (runs.filter (fun r => !decide (dayOf r.created_at = d))) d' := by
      intro d' hd'
      have hne : d' ≠ d := by
        rintro rfl
        exact (List.nodup_cons.mp hnd).1 hd'
      unfold groupFor
      rw [List.filter_filter]
      apply List.filter_congr
      intro r _
      cases hrd : decide (dayOf r.created_at = d') with
      | false => simp [hrd]
      | true =>
        have : dayOf r.created_at = d' := of_decide_eq_true hrd
        simp [hrd, this, hne]
    have hmap : rest.map (fun d' => (groupFor runs d').length)
        = rest.map (fun d' =>
            (groupFor (runs.filter (fun r => !decide (dayOf r.created_at = d))) d').length) := by
      apply List.map_congr_left
      intro d' hd'
      rw [key d' hd']
    rw [hmap, ih (List.nodup_cons.mp hnd).2]
    · have h1 : (groupFor runs d).length = runs.countP (fun r => decide (dayOf r.created_at = d)) := by
        rw [List.countP_eq_length_filter]; rfl
      have h2 : (runs.filter (fun r => !decide (dayOf r.created_at = d))).length
          = runs.countP (fun r => !decide (dayOf r.created_at = d)) := by
        rw [List.countP_eq_length_filter]
      rw [h1, h2]
      have h3 := List.length_eq_countP_add_countP (fun r => decide (dayOf r.created_at = d)) runs
      have h4 : runs.countP (fun r => !decide (dayOf r.created_at = d))
          = runs.countP (fun a => decide ¬(decide (dayOf a.created_at = d)) = true) := by
        apply List.countP_congr
        intro x _
        simp
      omega
    · intro r hr
      have hr' := List.mem_filter.mp hr
      have hd := hcov r hr'.1
      rcases List.mem_cons.mp hd with heq | hmem
      · exfalso
        have := hr'.2
        simp [heq] at this
      · exact hmem

end SensoBatch

namespace BatchFixRecreated

open SensoBatch

theorem mem_get_unbatched_runs_for_org {s : Store} {o : Nat} {r : QuestionRun} :
    r ∈ get_unbatched_runs_for_org s o ↔
      r ∈ s.question_runs ∧ r.batch_id = none ∧ r.deleted_at = none ∧
      ∃ gq ∈ s.geo_questions, gq.geo_question_id = r.geo_question_id ∧
        gq.org_id = some o ∧ gq.deleted_at = none := by
  unfold get_unbatched_runs_for_org
  rw [mem_sortRuns, List.mem_filter]
  simp only [decide_eq_true_eq]

theorem mem_get_orgs_with_unbatched_runs {s : Store} {o : Nat} :
    o ∈ get_orgs_with_unbatched_runs s ↔
      ∃ qr ∈ s.question_runs, qr.batch_id = none ∧ qr.deleted_at = none ∧
        ∃ gq ∈ s.geo_questions, gq.geo_question_id = qr.geo_question_id ∧
          gq.deleted_at = none ∧ gq.org_id = some o := by
  unfold get_orgs_with_unbatched_runs
  rw [mem_dedupAdj, mem_sortNat, List.mem_flatten]
  constructor
  · rintro ⟨l, hl, hol⟩
    rw [List.mem_map] at hl
    obtain ⟨qr, hqr, rfl⟩ := hl
    rw [List.mem_filter] at hqr
    obtain ⟨hqr1, hqr2⟩ := hqr
    simp only [decide_eq_true_eq] at hqr2
    rw [List.mem_filterMap] at hol
    obtain ⟨gq, hgq, hgqo⟩ := hol
    by_cases hcond : gq.geo_question_id = qr.geo_question_id ∧ gq.deleted_at = none
    · rw [if_pos hcond] at hgqo
      exact ⟨qr, hqr1, hqr2.1, hqr2.2, gq, hgq, hcond.1, hcond.2, hgqo⟩
    · rw [if_neg hcond] at hgqo
      cases hgqo
  · rintro ⟨qr, hqr, hb, hd, gq, hgq, hid, hgd, hgo⟩
    refine ⟨s.geo_questions.filterMap (fun gq => if gq.geo_question_id = qr.geo_question_id ∧
        gq.deleted_at = none then gq.org_id else none), ?_, ?_⟩
    · rw [List.mem_map]
      refine ⟨qr, ?_, rfl⟩
      rw [List.mem_filter]
      exact ⟨hqr, by simp only [decide_eq_true_eq]; exact ⟨hb, hd⟩⟩
    · rw [List.mem_filterMap]
      exact ⟨gq, hgq, by rw [if_pos ⟨hid, hgd⟩]; exact hgo⟩

theorem sorted_get_orgs_with_unbatched_runs (s : Store) :
    List.Sorted (· < ·) (get_orgs_with_unbatched_runs s) :=
  sorted_lt_dedupAdj (sorted_sortNat _)

end BatchFixRecreated

namespace NetworkBatchFix

open SensoBatch

theorem mem_get_unbatched_runs_for_network {s : Store} {n : Nat} {r : QuestionRun} :
    r ∈ get_unbatched_runs_for_network s n ↔
      r ∈ s.question_runs ∧ r.batch_id = none ∧
      ∃ gq ∈ s.geo_questions, gq.geo_question_id = r.geo_question_id ∧
        gq.network_id = some n ∧ gq.scope = "network" := by
  unfold get_unbatched_runs_for_network
  rw [mem_sortRuns, List.mem_filter]
  simp only [decide_eq_true_eq]

theorem mem_get_networks_with_unbatched_runs {s : Store} {n : Nat} :
    n ∈ get_networks_with_unbatched_runs s ↔
      ∃ qr ∈ s.question_runs, qr.batch_id = none ∧
        ∃ gq ∈ s.geo_questions, gq.geo_question_id = qr.geo_question_id ∧
          gq.scope = "network" ∧ gq.network_id = some n := by
  unfold get_networks_with_unbatched_runs
  rw [mem_dedupAdj, mem_sortNat, List.mem_flatten]
  constructor
  · rintro ⟨l, hl, hol⟩
    rw [List.mem_map] at hl
    obtain ⟨qr, hqr, rfl⟩ := hl
    rw [List.mem_filter] at hqr
    obtain ⟨hqr1, hqr2⟩ := hqr
    simp only [decide_eq_true_eq] at hqr2
    rw [List.mem_filterMap] at hol
    obtain ⟨gq, hgq, hgqo⟩ := hol
    by_cases hcond : gq.geo_question_id = qr.geo_question_id ∧ gq.scope = "network"
    · rw [if_pos hcond] at hgqo
      exact ⟨qr, hqr1, hqr2, gq, hgq, hcond.1, hcond.2, hgqo⟩
    · rw [if_neg hcond] at hgqo
      cases hgqo
  · rintro ⟨qr, hqr, hb, gq, hgq, hid, hsc, hgo⟩
    refine ⟨s.geo_questions.filterMap (fun gq => if gq.geo_question_id = qr.geo_question_id ∧
        gq.scope = "network" then gq.network_id else none), ?_, ?_⟩
    · rw [List.mem_map]
      refine ⟨qr, ?_, rfl⟩
      rw [List.mem_filter]
      exact ⟨hqr, by simp only [decide_eq_true_eq]; exact hb⟩
    · rw [List.mem_filterMap]
      exact ⟨gq, hgq, by rw [if_pos ⟨hid, hsc⟩]; exact hgo⟩

theorem sorted_get_networks_with_unbatched_runs (s : Store) :
    List.Sorted (· < ·) (get_networks_with_unbatched_runs s) :=
  sorted_lt_dedupAdj (sorted_sortNat _)

end NetworkBatchFix

namespace BatchFixRecreated

open SensoBatch

theorem processGroup_dry_store (now org : Nat) (st : GroupState) (d : Nat)
    (g : List QuestionRun) : (processGroup true now org st d g).store = st.store := rfl

theorem processGroups_dry_store (now org : Nat) (runs : List QuestionRun) :
    ∀ (ds : List Nat) (st : GroupState),
      (processGroups true now org runs ds st).store = st.store := by
  intro ds
  induction ds with
  | nil => intro st; rfl
  | cons d rest ih =>
    intro st
    rw [processGroups, ih, processGroup_dry_store]

theorem process_org_dry_store (now : Nat) (s : Store) (stats : Stats) (fresh org : Nat) :
    (process_org true now s stats fresh org).store = s := by
  unfold process_org
  split
  · dsimp only
    split
    · rfl
    · rw [if_neg (by simp), processGroups_dry_store]
  · rfl

theorem process_org_list_dry_store (now : Nat) :
    ∀ (l : List Nat) (rs : RunState), (process_org_list true now l rs).store = rs.store := by
  intro l
  induction l with
  | nil => intro rs; rfl
  | cons o rest ih =>
    intro rs
    rw [process_org_list, ih]
    simp only [process_org_dry_store]
    split <;> rfl

end BatchFixRecreated

/-- C3: a dry-run pass performs no write to the store: processing any single
org in dry-run mode, and a full dry-run pass over all orgs, return the input
store unchanged (whatever the outcome), so no run row and no batch row is
ever inserted or modified. -/
theorem c3_dry_run_performs_no_writes (now : Nat) (s : SensoBatch.Store)
    (stats : SensoBatch.Stats) (fresh org : Nat) :
    (BatchFixRecreated.process_org true now s stats fresh org).store = s ∧
    (BatchFixRecreated.process_all_orgs true now fresh s).store = s := by
  constructor
  · exact BatchFixRecreated.process_org_dry_store now s stats fresh org
  · exact BatchFixRecreated.process_org_list_dry_store now _ _

/-- C10: when the per-entity fetch returns zero eligible runs (and the
entity passes the existence check), processing returns success with the
store, the statistics, and the fresh counter all unchanged — in particular
the entity is not counted in `orgs_processed` / `networks_processed`.
Stated for both the org and the network script. -/
theorem c10_empty_fetch_is_noop (dry : Bool) (now : Nat) (s : SensoBatch.Store)
    (stats : SensoBatch.Stats) (fresh org nid : Nat) :
    (BatchFixRecreated.check_org_exists s org = true →
      BatchFixRecreated.get_unbatched_runs_for_org s org = [] →
      BatchFixRecreated.process_org dry now s stats fresh org = ⟨true, s, stats, fresh⟩) ∧
    (NetworkBatchFix.check_network_exists s nid = true →
      NetworkBatchFix.get_unbatched_runs_for_network s nid = [] →
      NetworkBatchFix.process_network dry now s stats fresh nid = ⟨true, s, stats, fresh⟩) := by
  constructor
  · intro h1 h2
    unfold BatchFixRecreated.process_org
    rw [if_pos h1, h2]
    rfl
  · intro h1 h2
    unfold NetworkBatchFix.process_network
    rw [if_pos h1, h2]
    rfl

/-- Witness for C10 at a concrete store with an existing org (1) and network
(2) and no runs at all. -/
theorem c10_empty_fetch_is_noop_witness :
    BatchFixRecreated.process_org false 7 SensoBatch.w10Store SensoBatch.emptyStats 5 1
      = ⟨true, SensoBatch.w10Store, SensoBatch.emptyStats, 5⟩ ∧
    NetworkBatchFix.process_network false 7 SensoBatch.w10Store SensoBatch.emptyStats 5 2
      = ⟨true, SensoBatch.w10Store, SensoBatch.emptyStats, 5⟩ :=
  ⟨(c10_empty_fetch_is_noop false 7 SensoBatch.w10Store SensoBatch.emptyStats 5 1 2).1
      (by decide) (by decide),
   (c10_empty_fetch_is_noop false 7 SensoBatch.w10Store SensoBatch.emptyStats 5 1 2).2
      (by decide) (by decide)⟩

/-- C5 (failing input): two successive real passes create two distinct
non-deleted batches for org 1 covering the same calendar day 5.  The first
pass batches the day-5 run 100 into batch 1000 (`started_at` null,
`created_at` = pass time); before the second pass the upstream system adds
another unbatched day-5 run 101; the second pass's
`check_existing_batch_for_date` matches on `started_at::date`, cannot see
batch 1000, and creates batch 2000 for the same (org 1, day 5). -/
theorem c5_duplicate_batches_for_same_day :
    (SensoBatch.c5Store2.question_run_batches.filter
      (fun b => decide (b.org_id = some 1 ∧ b.deleted_at = none))).length = 2 ∧
    SensoBatch.c5Store2.question_runs.map
      (fun r => (SensoBatch.dayOf r.created_at, r.batch_id))
        = [(5, some 1000), (5, some 2000)] ∧
    SensoBatch.c5Store2.question_run_batches.map (fun b => b.batch_id) = [1000, 2000] := by
  decide

/-- C1 (counterexample): after a full real pass over `ce1Store` — an org
with one pre-existing batch and one unbatched run that gets assigned to that
batch — the org has one non-deleted batch yet zero batches with
`is_latest = true`: latest-flag maintenance was skipped because the pass
created no new batch, even though it touched one. -/
theorem c1_latest_flag_counterexample :
    ((BatchFixRecreated.process_all_orgs false 900000 1000 SensoBatch.ce1Store).store.question_run_batches.filter
      (fun b => decide (b.org_id = some 1 ∧ b.deleted_at = none))).length = 1 ∧
    ((BatchFixRecreated.process_all_orgs false 900000 1000 SensoBatch.ce1Store).store.question_run_batches.filter
      (fun b => b.is_latest)).length = 0 ∧
    (BatchFixRecreated.process_all_orgs false 900000 1000 SensoBatch.ce1Store).store.question_runs.map
      (fun r => r.batch_id) = [some 50] := by
  decide

/-- C4 (counterexample): over the snapshot `ce1Store` a dry-run pass reports
`batches_created = 1` while a real pass over the same snapshot reports
`batches_created = 0` (the real pass reuses the pre-existing batch). -/
theorem c4_dry_run_stats_counterexample :
    (BatchFixRecreated.process_all_orgs true 900000 1000 SensoBatch.ce1Store).stats.batches_created = 1 ∧
    (BatchFixRecreated.process_all_orgs false 900000 1000 SensoBatch.ce1Store).stats.batches_created = 0 := by
  decide

/-- C6 (counterexample): org enumeration on `ce6Store` returns org 3 even
though the store's only candidate run belongs to a *network*-scoped question
(no spec-eligible run for org 3 exists), and network enumeration returns
network 8 even though network 8's only run is soft-deleted (no spec-eligible
run for network 8 exists). -/
theorem c6_enumeration_counterexample :
    BatchFixRecreated.get_orgs_with_unbatched_runs SensoBatch.ce6Store = [3] ∧
    SensoBatch.ce6Store.question_runs.filter
      (SensoBatch.specOrgEligibleRun SensoBatch.ce6Store 3) = [] ∧
    NetworkBatchFix.get_networks_with_unbatched_runs SensoBatch.ce6Store = [7, 8] ∧
    SensoBatch.ce6Store.question_runs.filter
      (SensoBatch.specNetEligibleRun SensoBatch.ce6Store 8) = [] := by
  decide

/-- C8 (counterexample): the network-script run update sets `batch_id` and
`updated_at` on a listed run that is soft-deleted (`deleted_at = some 5`)
and counts it as updated, contradicting the claimed restriction to
non-deleted runs. -/
theorem c8_assignment_counterexample :
    SensoBatch.ce8Run.deleted_at = some 5 ∧
    (NetworkBatchFix.update_question_runs_with_batch false SensoBatch.ce8Store 99
      [SensoBatch.ce8Run] 77).2.question_runs = [⟨300, 30, 0, 99, some 77, some 5⟩] ∧
    (NetworkBatchFix.update_question_runs_with_batch false SensoBatch.ce8Store 99
      [SensoBatch.ce8Run] 77).1 = 1 := by
  decide

namespace BatchFixRecreated

open SensoBatch

theorem pickLatest_go {l : List Batch} : ∀ {acc : Option Batch} {m : Batch},
    (l.foldl (fun acc b =>
      match acc with
      | none => some b
      | some m => if m.created_at < b.created_at then some b else some m) acc) = some m →
    (acc = some m ∨ m ∈ l) ∧ (∀ b ∈ l, b.created_at ≤ m.created_at) ∧
    (∀ a, acc = some a → a.created_at ≤ m.created_at) := by
  induction l with
  | nil =>
    intro acc m h
    rw [List.foldl_nil] at h
    refine ⟨Or.inl h, by simp, fun a ha => ?_⟩
    rw [h] at ha
    cases ha
    exact le_refl _
  | cons b bs ih =>
    intro acc m h
    rw [List.foldl_cons] at h
    obtain ⟨ih1, ih2, ih3⟩ := ih h
    match acc with
    | none =>
      dsimp only at ih1 ih3
      refine ⟨Or.inr ?_, fun x hx => ?_, fun a ha => by cases ha⟩
      · rcases ih1 with heq | hmem
        · cases heq; exact List.mem_cons_self _ _
        · exact List.mem_cons_of_mem _ hmem
      · rcases List.mem_cons.mp hx with rfl | hx'
        · exact ih3 x rfl
        · exact ih2 x hx'
    | some a0 =>
      dsimp only at ih1 ih3
      by_cases hlt : a0.created_at < b.created_at
      · rw [if_pos hlt] at ih1 ih3
        have hb : b.created_at ≤ m.created_at := ih3 b rfl
        refine ⟨Or.inr ?_, fun x hx => ?_, fun a ha => ?_⟩
        · rcases ih1 with heq | hmem
          · cases heq; exact List.mem_cons_self _ _
          · exact List.mem_cons_of_mem _ hmem
        · rcases List.mem_cons.mp hx with rfl | hx'
          · exact hb
          · exact ih2 x hx'
        · cases ha
          omega
      · rw [if_neg hlt] at ih1 ih3
        have ha0 : a0.created_at ≤ m.created_at := ih3 a0 rfl
        refine ⟨?_, fun x hx => ?_, fun a ha => by cases ha; exact ha0⟩
        · rcases ih1 with heq | hmem
          · exact Or.inl heq
          · exact Or.inr (List.mem_cons_of_mem _ hmem)
        · rcases List.mem_cons.mp hx with rfl | hx'
          · omega
          · exact ih2 x hx'

theorem pickLatest_spec {l : List Batch} {m : Batch} (h : pickLatest l = some m) :
    m ∈ l ∧ ∀ b ∈ l, b.created_at ≤ m.created_at := by
  unfold pickLatest at h
  obtain ⟨h1, h2, _⟩ := pickLatest_go h
  rcases h1 with heq | hmem
  · cases heq
  · exact ⟨hmem, h2⟩

theorem pickLatest_go_isSome (a : Batch) : ∀ (l : List Batch),
    (l.foldl (fun acc b =>
      match acc with
      | none => some b
      | some m => if m.created_at < b.created_at then some b else some m) (some a)).isSome = true := by
  intro l
  induction l generalizing a with
  | nil => rfl
  | cons b bs ih =>
    rw [List.foldl_cons]
    dsimp only
    by_cases hlt : a.created_at < b.created_at
    · rw [if_pos hlt]; exact ih b
    · rw [if_neg hlt]; exact ih a

theorem pickLatest_isSome {l : List Batch} (h : l ≠ []) : (pickLatest l).isSome = true := by
  match l, h with
  | b :: bs, _ =>
    unfold pickLatest
    rw [List.foldl_cons]
    exact pickLatest_go_isSome b bs

theorem update_latest_flags_for_org_frame (dry : Bool) (t : Store) (now org : Nat) :
    (update_latest_flags_for_org dry t now org).2.question_runs = t.question_runs ∧
    (update_latest_flags_for_org dry t now org).2.geo_questions = t.geo_questions ∧
    (update_latest_flags_for_org dry t now org).2.orgs = t.orgs ∧
    (update_latest_flags_for_org dry t now org).2.networks = t.networks := by
  unfold update_latest_flags_for_org
  split
  · exact ⟨rfl, rfl, rfl, rfl⟩
  · dsimp only
    split <;> exact ⟨rfl, rfl, rfl, rfl⟩

theorem update_latest_flags_for_org_shape (t : Store) (now org : Nat) :
    ∀ b' ∈ (update_latest_flags_for_org false t now org).2.question_run_batches,
      ∃ b ∈ t.question_run_batches, b'.batch_id = b.batch_id ∧ b'.scope = b.scope ∧
        b'.org_id = b.org_id ∧ b'.network_id = b.network_id ∧
        b'.batch_type = b.batch_type ∧ b'.status = b.status ∧
        b'.total_questions = b.total_questions ∧
        b'.completed_questions = b.completed_questions ∧
        b'.failed_questions = b.failed_questions ∧ b'.started_at = b.started_at ∧
        b'.created_at = b.created_at ∧ b'.deleted_at = b.deleted_at := by
  unfold update_latest_flags_for_org
  rw [if_neg (by simp)]
  dsimp only
  split
  · intro b' hb'
    rw [List.mem_map] at hb'
    obtain ⟨b, hb, rfl⟩ := hb'
    refine ⟨b, hb, ?_⟩
    unfold demoteOrg
    split
    · exact ⟨rfl, rfl, rfl, rfl, rfl, rfl, rfl, rfl, rfl, rfl, rfl, rfl⟩
    · exact ⟨rfl, rfl, rfl, rfl, rfl, rfl, rfl, rfl, rfl, rfl, rfl, rfl⟩
  · intro b' hb'
    rw [List.mem_map] at hb'
    obtain ⟨c, hc, rfl⟩ := hb'
    rw [List.mem_map] at hc
    obtain ⟨b, hb, rfl⟩ := hc
    refine ⟨b, hb, ?_⟩
    unfold promoteBatch demoteOrg
    split
    · split
      · exact ⟨rfl, rfl, rfl, rfl, rfl, rfl, rfl, rfl, rfl, rfl, rfl, rfl⟩
      · exact ⟨rfl, rfl, rfl, rfl, rfl, rfl, rfl, rfl, rfl, rfl, rfl, rfl⟩
    · split
      · exact ⟨rfl, rfl, rfl, rfl, rfl, rfl, rfl, rfl, rfl, rfl, rfl, rfl⟩
      · exact ⟨rfl, rfl, rfl, rfl, rfl, rfl, rfl, rfl, rfl, rfl, rfl, rfl⟩

end BatchFixRecreated

namespace BatchFixRecreated

open SensoBatch

theorem orgBatchPred_demoteOrg (now org : Nat) (b : Batch) :
    orgBatchPred org (demoteOrg now org b) = orgBatchPred org b := by
  unfold demoteOrg
  split <;> simp [orgBatchPred]

theorem orgBatchPred_promoteBatch (now bid : Nat) (b : Batch) :
    orgBatchPred org (promoteBatch now bid b) = orgBatchPred org b := by
  unfold promoteBatch
  split <;> simp [orgBatchPred]

theorem demoteOrg_batch_id (now org : Nat) (b : Batch) :
    (demoteOrg now org b).batch_id = b.batch_id := by
  unfold demoteOrg
  split <;> rfl

theorem demoteOrg_created_at (now org : Nat) (b : Batch) :
    (demoteOrg now org b).created_at = b.created_at := by
  unfold demoteOrg
  split <;> rfl

theorem demoteOrg_is_latest (now org : Nat) (b : Batch) (h : orgBatchPred org b = true) :
    (demoteOrg now org b).is_latest = false := by
  unfold demoteOrg
  rw [if_pos h]

theorem promoteBatch_created_at (now bid : Nat) (b : Batch) :
    (promoteBatch now bid b).created_at = b.created_at := by
  unfold promoteBatch
  split <;> rfl

theorem promoteBatch_is_latest (now bid : Nat) (b : Batch) (h : b.is_latest = false) :
    (promoteBatch now bid b).is_latest = decide (b.batch_id = bid) := by
  unfold promoteBatch
  split
  · rename_i hc
    simp [hc]
  · rename_i hc
    simp only [decide_eq_true_eq] at hc
    simp [h, hc]

theorem update_latest_flags_for_org_exactly_one (t : Store) (now org : Nat)
    (hnd : (t.question_run_batches.map (fun b => b.batch_id)).Nodup)
    (hne : t.question_run_batches.filter (orgBatchPred org) ≠ []) :
    (((update_latest_flags_for_org false t now org).2.question_run_batches.filter
        (orgBatchPred org)).filter (fun b => b.is_latest)).length = 1 ∧
    ∀ b ∈ (update_latest_flags_for_org false t now org).2.question_run_batches.filter
        (orgBatchPred org), b.is_latest = true →
      ∀ b' ∈ (update_latest_flags_for_org false t now org).2.question_run_batches.filter
          (orgBatchPred org), b'.created_at ≤ b.created_at := by
  have hF1 : (t.question_run_batches.map (demoteOrg now org)).filter (orgBatchPred org)
      = (t.question_run_batches.filter (orgBatchPred org)).map (demoteOrg now org) := by
    rw [List.filter_map]
    congr 1
    apply List.filter_congr
    intro b _
    exact orgBatchPred_demoteOrg now org b
  have hF1ne : (t.question_run_batches.map (demoteOrg now org)).filter (orgBatchPred org) ≠ [] := by
    rw [hF1]
    intro hcon
    exact hne (List.map_eq_nil_iff.mp hcon)
  have hsome := pickLatest_isSome hF1ne
  obtain ⟨m, hm⟩ := Option.isSome_iff_exists.mp hsome
  have hmm := pickLatest_spec hm
  -- identify the result store
  have hres : (update_latest_flags_for_org false t now org).2.question_run_batches
      = (t.question_run_batches.map (demoteOrg now org)).map (promoteBatch now m.batch_id) := by
    unfold update_latest_flags_for_org
    rw [if_neg (by simp)]
    dsimp only
    rw [hm]
  -- facts about members of the demoted filtered list
  have hF1latest : ∀ c ∈ (t.question_run_batches.map (demoteOrg now org)).filter
      (orgBatchPred org), c.is_latest = false := by
    intro c hc
    rw [hF1, List.mem_map] at hc
    obtain ⟨b, hb, rfl⟩ := hc
    exact demoteOrg_is_latest now org b (List.mem_filter.mp hb).2
  have hF1ids : (((t.question_run_batches.map (demoteOrg now org)).filter
      (orgBatchPred org)).map (fun b => b.batch_id)).Nodup := by
    rw [hF1, List.map_map]
    have : ((fun b => b.batch_id) ∘ demoteOrg now org) = (fun b : Batch => b.batch_id) := by
      funext b
      exact demoteOrg_batch_id now org b
    rw [this]
    exact List.Nodup.sublist (List.Sublist.map _ (List.filter_sublist _)) hnd
  -- the final filtered list
  have hF2 : (((t.question_run_batches.map (demoteOrg now org)).map
        (promoteBatch now m.batch_id)).filter (orgBatchPred org))
      = (((t.question_run_batches.map (demoteOrg now org)).filter
        (orgBatchPred org)).map (promoteBatch now m.batch_id)) := by
    rw [List.filter_map]
    congr 1
    apply List.filter_congr
    intro b _
    exact orgBatchPred_promoteBatch now m.batch_id b
  constructor
  · rw [hres, hF2, ← List.countP_eq_length_filter, List.countP_map]
    have hcongr : ∀ c ∈ (t.question_run_batches.map (demoteOrg now org)).filter
        (orgBatchPred org),
        ((fun b => b.is_latest) ∘ promoteBatch now m.batch_id) c
          = (fun b : Batch => decide (b.batch_id = m.batch_id)) c := by
      intro c hc
      exact promoteBatch_is_latest now m.batch_id c (hF1latest c hc)
    rw [List.countP_congr (fun c hc => by rw [hcongr c hc])]
    exact countP_proj_eq_one (fun b => b.batch_id) hF1ids
      (List.mem_map.mpr ⟨m, hmm.1, rfl⟩)
  · rw [hres, hF2]
    intro b hb hbl b' hb'
    rw [List.mem_map] at hb hb'
    obtain ⟨c, hc, rfl⟩ := hb
    obtain ⟨c', hc', rfl⟩ := hb'
    have hcl : c.is_latest = false := hF1latest c hc
    have : decide (c.batch_id = m.batch_id) = true := by
      rw [← promoteBatch_is_latest now m.batch_id c hcl]
      exact hbl
    have hcid : c.batch_id = m.batch_id := of_decide_eq_true this
    have hceq : c = m := List.inj_on_of_nodup_map hF1ids hc hmm.1 hcid
    subst hceq
    rw [promoteBatch_created_at, promoteBatch_created_at]
    exact hmm.2 c' hc'

end BatchFixRecreated

namespace SensoBatch

theorem forall₂_mem_imp {α β : Type} {R S : α → β → Prop} :
    ∀ {l₁ : List α} {l₂ : List β}, List.Forall₂ R l₁ l₂ →
      (∀ a ∈ l₁, ∀ b ∈ l₂, R a b → S a b) → List.Forall₂ S l₁ l₂ := by
  intro l₁ l₂ h
  induction h with
  | nil => intro _; exact List.Forall₂.nil
  | cons hR htail ih =>
    intro himp
    exact List.Forall₂.cons
      (himp _ (List.mem_cons_self _ _) _ (List.mem_cons_self _ _) hR)
      (ih (fun a ha b hb hab => himp a (List.mem_cons_of_mem _ ha) b (List.mem_cons_of_mem _ hb) hab))

theorem forall₂_refl_of {α : Type} {R : α → α → Prop} :
    ∀ {l : List α}, (∀ a ∈ l, R a a) → List.Forall₂ R l l := by
  intro l
  induction l with
  | nil => intro _; exact List.Forall₂.nil
  | cons x xs ih =>
    intro h
    exact List.Forall₂.cons (h x (List.mem_cons_self _ _))
      (ih (fun a ha => h a (List.mem_cons_of_mem _ ha)))

end SensoBatch

namespace BatchFixRecreated

open SensoBatch

theorem assignRun_question_run_id (now bid : Nat) (ids : List Nat) (r : QuestionRun) :
    (assignRun now bid ids r).question_run_id = r.question_run_id := by
  unfold assignRun
  split <;> rfl

theorem assignRun_geo_question_id (now bid : Nat) (ids : List Nat) (r : QuestionRun) :
    (assignRun now bid ids r).geo_question_id = r.geo_question_id := by
  unfold assignRun
  split <;> rfl

theorem assignRun_created_at (now bid : Nat) (ids : List Nat) (r : QuestionRun) :
    (assignRun now bid ids r).created_at = r.created_at := by
  unfold assignRun
  split <;> rfl

theorem assignRun_deleted_at (now bid : Nat) (ids : List Nat) (r : QuestionRun) :
    (assignRun now bid ids r).deleted_at = r.deleted_at := by
  unfold assignRun
  split <;> rfl

theorem assignRun_hit (now bid : Nat) (ids : List Nat) (r : QuestionRun)
    (h : runHit ids r = true) :
    (assignRun now bid ids r).batch_id = some bid := by
  unfold assignRun
  rw [if_pos h]

theorem assignRun_miss (now bid : Nat) (ids : List Nat) (r : QuestionRun)
    (h : runHit ids r = false) : assignRun now bid ids r = r := by
  unfold assignRun
  rw [if_neg (by rw [h]; exact Bool.false_ne_true)]

theorem update_question_runs_real (s : Store) (now : Nat) (runs : List QuestionRun)
    (bid : Nat) :
    update_question_runs_with_batch false s now runs bid =
      ((s.question_runs.filter (runHit (runs.map (fun r => r.question_run_id)))).length,
        { s with question_runs :=
            s.question_runs.map (assignRun now bid (runs.map (fun r => r.question_run_id))) }) := rfl

theorem create_batch_real (s : Store) (fresh now org d n : Nat) :
    create_batch false s fresh now org d n =
      (fresh,
        { s with question_run_batches := s.question_run_batches ++ [mkNewBatch org fresh now n] },
        fresh + 1) := rfl

theorem check_existing_append (L nb : List Batch) (rest : Store) (org d : Nat)
    (hnb : ∀ b ∈ nb, b.started_at = none) :
    check_existing_batch_for_date { rest with question_run_batches := L ++ nb } org d
      = check_existing_batch_for_date { rest with question_run_batches := L } org d := by
  unfold check_existing_batch_for_date
  have h2 : List.find? (fun b => decide (b.org_id = some org ∧
      b.started_at.map dayOf = some d ∧ b.deleted_at = none)) nb = none := by
    rw [List.find?_eq_none]
    intro b hb
    rw [hnb b hb]
    simp
  simp only [List.find?_append, h2, Option.or_none]

theorem check_existing_ignores_runs (s : Store) (qr : List QuestionRun) (org d : Nat) :
    check_existing_batch_for_date { s with question_runs := qr } org d
      = check_existing_batch_for_date s org d := rfl

end BatchFixRecreated

namespace BatchFixRecreated

open SensoBatch

theorem runHit_iff {ids : List Nat} {r : QuestionRun} :
    runHit ids r = true ↔ r.question_run_id ∈ ids ∧ r.deleted_at = none := by
  simp [runHit]

theorem newBatchFields_mkNewBatch (org bid now n : Nat) :
    newBatchFields org now (mkNewBatch org bid now n) :=
  ⟨rfl, rfl, rfl, rfl, rfl, rfl, rfl, rfl, rfl, rfl, rfl⟩

theorem loopInv_step (s : Store) (org now fresh0 : Nat) (runs : List QuestionRun)
    (hIds : (s.question_runs.map (fun r => r.question_run_id)).Nodup)
    (hRef : ∀ r ∈ s.question_runs, ∀ b, r.batch_id = some b → b < fresh0)
    (hBlt0 : ∀ b ∈ s.question_run_batches, b.batch_id < fresh0)
    (hruns : ∀ r ∈ runs, r ∈ s.question_runs ∧ r.batch_id = none ∧ r.deleted_at = none)
    (hRunsNodup : (runs.map (fun r => r.question_run_id)).Nodup)
    (dsDone : List Nat) (d : Nat) (hdnew : d ∉ dsDone)
    (st : GroupState) (hInv : LoopInv s org now fresh0 runs dsDone st) :
    LoopInv s org now fresh0 runs (dsDone ++ [d])
      (processGroup false now org st d (groupFor runs d)) := by
  obtain ⟨hgeo, horgs, hnets, hfr, ⟨nb, hnbeq, hnblen, hnball⟩, hbnd, hblt, hrel, htot, hcre⟩ := hInv
  set g := groupFor runs d with hgdef
  set ids := g.map (fun r => r.question_run_id) with hidsdef
  have hg_mem : ∀ q ∈ g, q ∈ runs ∧ dayOf q.created_at = d := fun q hq => mem_groupFor.mp hq
  have hids_sub : ids ⊆ s.question_runs.map (fun r => r.question_run_id) := by
    intro i hi
    rw [hidsdef, List.mem_map] at hi
    obtain ⟨q, hq, rfl⟩ := hi
    exact List.mem_map.mpr ⟨q, (hruns q (hg_mem q hq).1).1, rfl⟩
  have hids_nodup : ids.Nodup :=
    List.Nodup.sublist (List.Sublist.map _ (groupFor_sublist runs d)) hRunsNodup
  have key : ∀ r ∈ s.question_runs, ∀ r' : QuestionRun,
      heavyRel runs dsDone st.fresh r r' → r'.question_run_id ∈ ids → r ∈ g := by
    intro r hr r' hrr' hin
    rw [hidsdef, List.mem_map] at hin
    obtain ⟨q, hq, hqid⟩ := hin
    have hq_s : q ∈ s.question_runs := (hruns q (hg_mem q hq).1).1
    have : q = r := List.inj_on_of_nodup_map hIds hq_s hr (by rw [hqid, hrr'.1])
    rwa [← this]
  have hhit_char : ∀ r' ∈ st.store.question_runs,
      runHit ids r' = decide (r'.question_run_id ∈ ids) := by
    intro r' hr'
    obtain ⟨r, hr, hrr'⟩ := forall₂_mem_right hrel r' hr'
    by_cases hin : r'.question_run_id ∈ ids
    · have hrg : r ∈ g := key r hr r' hrr' hin
      have hdel : r'.deleted_at = none := by
        rw [hrr'.2.2.2.1]
        exact (hruns r (hg_mem r hrg).1).2.2
      rw [runHit]
      simp [hin, hdel]
    · rw [runHit]
      simp [hin]
  have hhit_none : ∀ r' ∈ st.store.question_runs, runHit ids r' = true →
      r'.batch_id = none := by
    intro r' hr' hhit
    obtain ⟨r, hr, hrr'⟩ := forall₂_mem_right hrel r' hr'
    have hin : r'.question_run_id ∈ ids := (runHit_iff.mp hhit).1
    have hrg : r ∈ g := key r hr r' hrr' hin
    rcases hrr'.2.2.2.2 with hsame | ⟨_, hday, _⟩
    · rw [hsame]
      exact (hruns r (hg_mem r hrg).1).2.1
    · exact absurd ((hg_mem r hrg).2 ▸ hday) hdnew
  have hmapid : st.store.question_runs.map (fun r => r.question_run_id)
      = s.question_runs.map (fun r => r.question_run_id) :=
    forall₂_map_eq _ _ (fun a b hab => hab.1) hrel
  have hcnt : (st.store.question_runs.filter (runHit ids)).length = g.length := by
    rw [← List.countP_eq_length_filter]
    rw [List.countP_congr (fun r' hr' => by rw [hhit_char r' hr'])]
    have e1 : st.store.question_runs.countP (fun r' => decide (r'.question_run_id ∈ ids))
        = (st.store.question_runs.map (fun r => r.question_run_id)).countP
            (fun i => decide (i ∈ ids)) :=
      (List.countP_map (fun i => decide (i ∈ ids)) (fun r : QuestionRun => r.question_run_id)
        st.store.question_runs).symm
    have e2 : s.question_runs.countP (fun r' => decide (r'.question_run_id ∈ ids))
        = (s.question_runs.map (fun r => r.question_run_id)).countP
            (fun i => decide (i ∈ ids)) :=
      (List.countP_map (fun i => decide (i ∈ ids)) (fun r : QuestionRun => r.question_run_id)
        s.question_runs).symm
    rw [e1, hmapid, ← e2]
    exact (countP_proj_mem (fun r : QuestionRun => r.question_run_id)
      hIds hids_nodup hids_sub).trans (List.length_map _ _)
  have hcount_pres : ∀ (bid bid0 : Nat), bid ≠ bid0 →
      ((st.store.question_runs.map (assignRun now bid ids)).countP
        (fun r => decide (r.batch_id = some bid0)))
      = st.store.question_runs.countP (fun r => decide (r.batch_id = some bid0)) := by
    intro bid bid0 hne
    rw [List.countP_map]
    apply List.countP_congr
    intro r' hr'
    show decide ((assignRun now bid ids r').batch_id = some bid0) = true
      ↔ decide (r'.batch_id = some bid0) = true
    by_cases hhit : runHit ids r' = true
    · have h1 : (assignRun now bid ids r').batch_id = some bid := assignRun_hit _ _ _ _ hhit
      have h2 : r'.batch_id = none := hhit_none r' hr' hhit
      rw [h1, h2]
      simp [hne]
    · rw [assignRun_miss _ _ _ _ (Bool.eq_false_iff.mpr hhit)]
  have hcount_new : ∀ (bid : Nat), st.fresh ≤ bid →
      ((st.store.question_runs.map (assignRun now bid ids)).countP
        (fun r => decide (r.batch_id = some bid)))
      = g.length := by
    intro bid hbid
    rw [List.countP_map, ← hcnt, ← List.countP_eq_length_filter]
    apply List.countP_congr
    intro r' hr'
    show decide ((assignRun now bid ids r').batch_id = some bid) = true ↔ runHit ids r' = true
    obtain ⟨r, hr, hrr'⟩ := forall₂_mem_right hrel r' hr'
    by_cases hhit : runHit ids r' = true
    · have h1 : (assignRun now bid ids r').batch_id = some bid := assignRun_hit _ _ _ _ hhit
      rw [h1, hhit]
      simp
    · have hmiss : runHit ids r' = false := Bool.eq_false_iff.mpr hhit
      rw [assignRun_miss _ _ _ _ hmiss]
      have hne : r'.batch_id ≠ some bid := by
        rcases hrr'.2.2.2.2 with hsame | ⟨_, _, b, hb, hblt'⟩
        · rw [hsame]
          cases hrb : r.batch_id with
          | none => simp
          | some x =>
            have hx := hRef r hr x hrb
            intro hcon
            cases hcon
            omega
        · rw [hb]
          intro hcon
          cases hcon
          omega
      rw [hmiss]
      simp [hne]
  have hchkeq : check_existing_batch_for_date st.store org d
      = check_existing_batch_for_date s org d := by
    unfold check_existing_batch_for_date
    rw [hnbeq, List.find?_append]
    have hnone : List.find? (fun b => decide (b.org_id = some org ∧
        b.started_at.map dayOf = some d ∧ b.deleted_at = none)) nb = none := by
      rw [List.find?_eq_none]
      intro b hb
      have hstart : b.started_at = none := (hnball b hb).1.2.2.2.2.2.2.2.2.1
      rw [hstart]
      simp
    rw [hnone, Option.or_none]
  have hrel_next : ∀ (bid newFresh : Nat), st.fresh ≤ newFresh → bid < newFresh →
      List.Forall₂ (heavyRel runs (dsDone ++ [d]) newFresh) s.question_runs
        (st.store.question_runs.map (assignRun now bid ids)) := by
    intro bid newFresh hnf hbidlt
    rw [List.forall₂_map_right_iff]
    apply forall₂_mem_imp hrel
    intro r hr r' hr' hrr'
    refine ⟨by rw [assignRun_question_run_id, hrr'.1],
      by rw [assignRun_geo_question_id, hrr'.2.1],
      by rw [assignRun_created_at, hrr'.2.2.1],
      by rw [assignRun_deleted_at, hrr'.2.2.2.1], ?_⟩
    by_cases hhit : runHit ids r' = true
    · right
      have hin : r'.question_run_id ∈ ids := (runHit_iff.mp hhit).1
      have hrg : r ∈ g := key r hr r' hrr' hin
      exact ⟨(hg_mem r hrg).1,
        List.mem_append_right _ ((hg_mem r hrg).2 ▸ List.mem_cons_self d []),
        bid, assignRun_hit _ _ _ _ hhit, hbidlt⟩
    · rw [assignRun_miss _ _ _ _ (Bool.eq_false_iff.mpr hhit)]
      rcases hrr'.2.2.2.2 with hsame | ⟨hm, hday, b, hb, hblt'⟩
      · exact Or.inl hsame
      · exact Or.inr ⟨hm, List.mem_append_left _ hday, b, hb, by omega⟩
  have htot_next : ∀ n : Nat, n = g.length →
      st.total_runs_updated + n
        = ((dsDone ++ [d]).map (fun d' => (groupFor runs d').length)).sum := by
    intro n hn
    rw [hn, htot, List.map_append, List.sum_append]
    simp [← hgdef]
  unfold processGroup
  rw [if_neg (by simp)]
  cases hchk : check_existing_batch_for_date st.store org d with
  | some bid =>
    have hbid0 : bid < fresh0 := by
      rw [hchkeq] at hchk
      unfold check_existing_batch_for_date at hchk
      rw [Option.map_eq_some'] at hchk
      obtain ⟨b, hb, rfl⟩ := hchk
      exact hBlt0 b (List.mem_of_find?_eq_some hb)
    dsimp only
    rw [update_question_runs_real]
    show LoopInv s org now fresh0 runs (dsDone ++ [d])
      ⟨{ st.store with question_runs :=
          st.store.question_runs.map (assignRun now bid (g.map (fun r => r.question_run_id))) },
        st.total_runs_updated + (st.store.question_runs.filter
          (runHit (g.map (fun r => r.question_run_id)))).length,
        st.batches_created, st.fresh⟩
    refine ⟨hgeo, horgs, hnets, hfr, ⟨nb, hnbeq, hnblen, ?_⟩, hbnd, hblt, ?_, ?_, ?_⟩
    · intro b hbnb
      obtain ⟨hf, hge, hlt, hcount⟩ := hnball b hbnb
      exact ⟨hf, hge, hlt, hcount.trans (hcount_pres bid b.batch_id (by omega)).symm⟩
    · exact hrel_next bid st.fresh (le_refl _) (by omega)
    · exact htot_next _ hcnt
    · show st.batches_created = _
      rw [hcre, List.countP_append]
      have hfalse : (check_existing_batch_for_date s org d).isNone = false := by
        rw [← hchkeq, hchk]
        rfl
      simp [hfalse]
  | none =>
    have hchks : check_existing_batch_for_date s org d = none := by
      rw [← hchkeq, hchk]
    dsimp only
    rw [create_batch_real, update_question_runs_real]
    show LoopInv s org now fresh0 runs (dsDone ++ [d])
      ⟨{ st.store with
          question_runs := st.store.question_runs.map
            (assignRun now st.fresh (g.map (fun r => r.question_run_id))),
          question_run_batches := st.store.question_run_batches
            ++ [mkNewBatch org st.fresh now g.length] },
        st.total_runs_updated + (st.store.question_runs.filter
          (runHit (g.map (fun r => r.question_run_id)))).length,
        st.batches_created + 1, st.fresh + 1⟩
    refine ⟨hgeo, horgs, hnets, show fresh0 ≤ st.fresh + 1 by omega,
      ⟨nb ++ [mkNewBatch org st.fresh now g.length], ?_, ?_, ?_⟩, ?_, ?_, ?_, ?_, ?_⟩
    · show st.store.question_run_batches ++ [mkNewBatch org st.fresh now g.length] = _
      rw [hnbeq, List.append_assoc]
    · simp [hnblen]
    · intro b hbnb
      rcases List.mem_append.mp hbnb with hold | hnew
      · obtain ⟨hf, hge, hlt, hcount⟩ := hnball b hold
        refine ⟨hf, hge, show b.batch_id < st.fresh + 1 by omega, ?_⟩
        exact hcount.trans (hcount_pres st.fresh b.batch_id (by omega)).symm
      · rw [List.mem_singleton] at hnew
        subst hnew
        refine ⟨newBatchFields_mkNewBatch org st.fresh now g.length, hfr,
          show (mkNewBatch org st.fresh now g.length).batch_id < st.fresh + 1 by
            simp [mkNewBatch], ?_⟩
        show g.length = _
        exact (hcount_new st.fresh (le_refl _)).symm
    · show ((st.store.question_run_batches ++ [mkNewBatch org st.fresh now g.length]).map
        (fun b => b.batch_id)).Nodup
      rw [List.map_append]
      rw [List.nodup_append]
      refine ⟨hbnd, by simp, ?_⟩
      intro a ha hacon
      simp only [List.map_cons, List.map_nil, List.mem_singleton, mkNewBatch] at hacon
      rw [List.mem_map] at ha
      obtain ⟨b, hb, rfl⟩ := ha
      have := hblt b hb
      omega
    · intro b hbmem
      show b.batch_id < st.fresh + 1
      rcases List.mem_append.mp hbmem with hold | hnew
      · have := hblt b hold
        omega
      · rw [List.mem_singleton] at hnew
        subst hnew
        simp [mkNewBatch]
    · exact hrel_next st.fresh (st.fresh + 1) (by omega) (by omega)
    · exact htot_next _ hcnt
    · show st.batches_created + 1 = _
      rw [hcre, List.countP_append]
      have htrue : (check_existing_batch_for_date s org d).isNone = true := by
        rw [hchks]
        rfl
      simp [htrue]

end BatchFixRecreated

namespace BatchFixRecreated

open SensoBatch

theorem loopInv_init (s : Store) (org now fresh0 : Nat) (runs : List QuestionRun)
    (hB : (s.question_run_batches.map (fun b => b.batch_id)).Nodup)
    (hBlt : ∀ b ∈ s.question_run_batches, b.batch_id < fresh0) :
    LoopInv s org now fresh0 runs [] ⟨s, 0, 0, fresh0⟩ := by
  refine ⟨rfl, rfl, rfl, le_refl _,
    ⟨[], (List.append_nil _).symm, rfl, by simp⟩, hB, hBlt, ?_, rfl, rfl⟩
  exact forall₂_refl_of (fun r _ => ⟨rfl, rfl, rfl, rfl, Or.inl rfl⟩)

theorem loopInv_run (s : Store) (org now fresh0 : Nat) (runs : List QuestionRun)
    (hIds : (s.question_runs.map (fun r => r.question_run_id)).Nodup)
    (hRef : ∀ r ∈ s.question_runs, ∀ b, r.batch_id = some b → b < fresh0)
    (hBlt0 : ∀ b ∈ s.question_run_batches, b.batch_id < fresh0)
    (hruns : ∀ r ∈ runs, r ∈ s.question_runs ∧ r.batch_id = none ∧ r.deleted_at = none)
    (hRunsNodup : (runs.map (fun r => r.question_run_id)).Nodup) :
    ∀ (ds dsDone : List Nat), (dsDone ++ ds).Nodup → ∀ st : GroupState,
      LoopInv s org now fresh0 runs dsDone st →
      LoopInv s org now fresh0 runs (dsDone ++ ds) (processGroups false now org runs ds st) := by
  intro ds
  induction ds with
  | nil =>
    intro dsDone _ st h
    rw [List.append_nil]
    exact h
  | cons d rest ih =>
    intro dsDone hnd st h
    rw [processGroups]
    have hdnew : d ∉ dsDone := by
      intro hcon
      exact (List.nodup_append.mp hnd).2.2 hcon (List.mem_cons_self _ _)
    have hstep := loopInv_step s org now fresh0 runs hIds hRef hBlt0 hruns hRunsNodup
      dsDone d hdnew st h
    have hnd' : ((dsDone ++ [d]) ++ rest).Nodup := by
      rw [List.append_assoc]
      exact hnd
    have hres := ih (dsDone ++ [d]) hnd' _ hstep
    rw [List.append_assoc] at hres
    exact hres

theorem fetch_runs_facts (s : Store) (org : Nat) :
    ∀ r ∈ get_unbatched_runs_for_org s org,
      r ∈ s.question_runs ∧ r.batch_id = none ∧ r.deleted_at = none := by
  intro r hr
  have := mem_get_unbatched_runs_for_org.mp hr
  exact ⟨this.1, this.2.1, this.2.2.1⟩

theorem fetch_runs_nodup (s : Store) (org : Nat)
    (hIds : (s.question_runs.map (fun r => r.question_run_id)).Nodup) :
    ((get_unbatched_runs_for_org s org).map (fun r => r.question_run_id)).Nodup := by
  unfold get_unbatched_runs_for_org
  have hperm := (sortRuns_perm (s.question_runs.filter (fun qr =>
    decide (qr.batch_id = none ∧ qr.deleted_at = none ∧
      ∃ gq ∈ s.geo_questions, gq.geo_question_id = qr.geo_question_id ∧
        gq.org_id = some org ∧ gq.deleted_at = none)))).map
    (fun r : QuestionRun => r.question_run_id)
  apply hperm.symm.nodup
  exact List.Nodup.sublist (List.Sublist.map _ (List.filter_sublist _)) hIds

theorem process_org_loopInv (now : Nat) (s : Store) (fresh org : Nat)
    (hIds : (s.question_runs.map (fun r => r.question_run_id)).Nodup)
    (hRef : ∀ r ∈ s.question_runs, ∀ b, r.batch_id = some b → b < fresh)
    (hB : (s.question_run_batches.map (fun b => b.batch_id)).Nodup)
    (hBlt : ∀ b ∈ s.question_run_batches, b.batch_id < fresh) :
    LoopInv s org now fresh (get_unbatched_runs_for_org s org)
      (runDays (get_unbatched_runs_for_org s org))
      (processGroups false now org (get_unbatched_runs_for_org s org)
        (runDays (get_unbatched_runs_for_org s org)) ⟨s, 0, 0, fresh⟩) := by
  have h := loopInv_run s org now fresh (get_unbatched_runs_for_org s org)
    hIds hRef hBlt (fetch_runs_facts s org) (fetch_runs_nodup s org hIds)
    (runDays (get_unbatched_runs_for_org s org)) []
    (by rw [List.nil_append]; exact runDays_nodup _)
    ⟨s, 0, 0, fresh⟩ (loopInv_init s org now fresh _ hB hBlt)
  rwa [List.nil_append] at h

theorem process_org_fail_eq (dry : Bool) (now : Nat) (s : Store) (stats : Stats)
    (fresh org : Nat) (h : check_org_exists s org = false) :
    process_org dry now s stats fresh org =
      ⟨false, s, { stats with errors := stats.errors ++ [orgMissingMsg org] }, fresh⟩ := by
  unfold process_org
  rw [h]
  rfl

theorem process_org_empty_eq (dry : Bool) (now : Nat) (s : Store) (stats : Stats)
    (fresh org : Nat) (h1 : check_org_exists s org = true)
    (h2 : get_unbatched_runs_for_org s org = []) :
    process_org dry now s stats fresh org = ⟨true, s, stats, fresh⟩ := by
  unfold process_org
  rw [if_pos h1, h2]
  rfl

theorem process_org_real_cases (now : Nat) (s : Store) (stats : Stats) (fresh org : Nat)
    (hcheck : check_org_exists s org = true)
    (hne : ¬(get_unbatched_runs_for_org s org = [])) :
    process_org false now s stats fresh org =
      { ok := true,
        store := if 0 < (processGroups false now org (get_unbatched_runs_for_org s org)
            (runDays (get_unbatched_runs_for_org s org)) ⟨s, 0, 0, fresh⟩).batches_created
          then (update_latest_flags_for_org false
            (processGroups false now org (get_unbatched_runs_for_org s org)
              (runDays (get_unbatched_runs_for_org s org)) ⟨s, 0, 0, fresh⟩).store now org).2
          else (processGroups false now org (get_unbatched_runs_for_org s org)
            (runDays (get_unbatched_runs_for_org s org)) ⟨s, 0, 0, fresh⟩).store,
        stats := { stats with
          entities_processed := stats.entities_processed + 1,
          batches_created := stats.batches_created +
            (processGroups false now org (get_unbatched_runs_for_org s org)
              (runDays (get_unbatched_runs_for_org s org)) ⟨s, 0, 0, fresh⟩).batches_created,
          question_runs_updated := stats.question_runs_updated +
            (processGroups false now org (get_unbatched_runs_for_org s org)
              (runDays (get_unbatched_runs_for_org s org)) ⟨s, 0, 0, fresh⟩).total_runs_updated,
          total_questions_processed := stats.total_questions_processed +
            (processGroups false now org (get_unbatched_runs_for_org s org)
              (runDays (get_unbatched_runs_for_org s org)) ⟨s, 0, 0, fresh⟩).total_runs_updated },
        fresh := (processGroups false now org (get_unbatched_runs_for_org s org)
          (runDays (get_unbatched_runs_for_org s org)) ⟨s, 0, 0, fresh⟩).fresh } := by
  unfold process_org
  rw [if_pos hcheck]
  dsimp only
  rw [if_neg hne]
  simp only [eq_self_iff_true, true_and]

end BatchFixRecreated

namespace BatchFixRecreated

open SensoBatch

theorem processGroups_dry_total (now org : Nat) (runs : List QuestionRun) :
    ∀ (ds : List Nat) (st : GroupState),
      (processGroups true now org runs ds st).total_runs_updated
        = st.total_runs_updated + (ds.map (fun d => (groupFor runs d).length)).sum := by
  intro ds
  induction ds with
  | nil => intro st; rfl
  | cons d rest ih =>
    intro st
    rw [processGroups, ih]
    show (processGroup true now org st d (groupFor runs d)).total_runs_updated + _ = _
    simp only [processGroup, if_pos]
    simp only [List.map_cons, List.sum_cons]
    omega

theorem processGroups_dry_created (now org : Nat) (runs : List QuestionRun) :
    ∀ (ds : List Nat) (st : GroupState),
      (processGroups true now org runs ds st).batches_created
        = st.batches_created + ds.length := by
  intro ds
  induction ds with
  | nil => intro st; rfl
  | cons d rest ih =>
    intro st
    rw [processGroups, ih]
    show (processGroup true now org st d (groupFor runs d)).batches_created + _ = _
    simp only [processGroup, if_pos]
    simp only [List.length_cons]
    omega

theorem processGroups_dry_fresh (now org : Nat) (runs : List QuestionRun) :
    ∀ (ds : List Nat) (st : GroupState),
      (processGroups true now org runs ds st).fresh = st.fresh := by
  intro ds
  induction ds with
  | nil => intro st; rfl
  | cons d rest ih =>
    intro st
    rw [processGroups, ih]
    rfl

theorem process_org_dry_eq (now : Nat) (s : Store) (stats : Stats) (fresh org : Nat)
    (hcheck : check_org_exists s org = true)
    (hne : ¬(get_unbatched_runs_for_org s org = [])) :
    process_org true now s stats fresh org =
      { ok := true, store := s,
        stats := { stats with
          entities_processed := stats.entities_processed + 1,
          batches_created := stats.batches_created +
            (runDays (get_unbatched_runs_for_org s org)).length,
          question_runs_updated := stats.question_runs_updated +
            ((runDays (get_unbatched_runs_for_org s org)).map
              (fun d => (groupFor (get_unbatched_runs_for_org s org) d).length)).sum,
          total_questions_processed := stats.total_questions_processed +
            ((runDays (get_unbatched_runs_for_org s org)).map
              (fun d => (groupFor (get_unbatched_runs_for_org s org) d).length)).sum },
        fresh := fresh } := by
  unfold process_org
  rw [if_pos hcheck]
  dsimp only
  rw [if_neg hne]
  rw [if_neg (by simp)]
  rw [processGroups_dry_store, processGroups_dry_total, processGroups_dry_created,
    processGroups_dry_fresh]
  simp only [Nat.zero_add]

end BatchFixRecreated

/-- C1 (amended): latest-flag maintenance runs only when the pass created at
least one new batch for the org (merely touching existing batches does not
trigger it).  When it does run — i.e. whenever `batches_created` grew — the
result store has exactly one batch with `is_latest = true` among the org's
non-deleted batches, and that batch's `created_at` is maximal among them.
Identifier hypotheses: run and batch primary keys are unique and every
stored identifier is below the fresh-identifier counter (uuid freshness). -/
theorem c1_latest_flag_amended (now : Nat) (s : SensoBatch.Store)
    (stats : SensoBatch.Stats) (fresh org : Nat)
    (hIds : (s.question_runs.map (fun r => r.question_run_id)).Nodup)
    (hRef : ∀ r ∈ s.question_runs, ∀ b, r.batch_id = some b → b < fresh)
    (hB : (s.question_run_batches.map (fun b => b.batch_id)).Nodup)
    (hBlt : ∀ b ∈ s.question_run_batches, b.batch_id < fresh)
    (hcreated : stats.batches_created
      < (BatchFixRecreated.process_org false now s stats fresh org).stats.batches_created) :
    (((BatchFixRecreated.process_org false now s stats fresh org).store.question_run_batches.filter
        (BatchFixRecreated.orgBatchPred org)).filter (fun b => b.is_latest)).length = 1 ∧
    ∀ b ∈ (BatchFixRecreated.process_org false now s stats
        fresh org).store.question_run_batches.filter (BatchFixRecreated.orgBatchPred org),
      b.is_latest = true →
      ∀ b' ∈ (BatchFixRecreated.process_org false now s stats
          fresh org).store.question_run_batches.filter (BatchFixRecreated.orgBatchPred org),
        b'.created_at ≤ b.created_at := by
  by_cases hcheck : BatchFixRecreated.check_org_exists s org = true
  · by_cases hne : BatchFixRecreated.get_unbatched_runs_for_org s org = []
    · rw [BatchFixRecreated.process_org_empty_eq false now s stats fresh org hcheck hne]
        at hcreated
      exact absurd (hcreated : stats.batches_created < stats.batches_created) (lt_irrefl _)
    · have heq := BatchFixRecreated.process_org_real_cases now s stats fresh org hcheck hne
      rw [heq] at hcreated ⊢
      have hpos : 0 < (BatchFixRecreated.processGroups false now org
          (BatchFixRecreated.get_unbatched_runs_for_org s org)
          (SensoBatch.runDays (BatchFixRecreated.get_unbatched_runs_for_org s org))
          ⟨s, 0, 0, fresh⟩).batches_created := by
        have h2 : stats.batches_created < stats.batches_created +
            (BatchFixRecreated.processGroups false now org
              (BatchFixRecreated.get_unbatched_runs_for_org s org)
              (SensoBatch.runDays (BatchFixRecreated.get_unbatched_runs_for_org s org))
              ⟨s, 0, 0, fresh⟩).batches_created := hcreated
        omega
      rw [if_pos hpos]
      obtain ⟨_, _, _, _, ⟨nb, hnbeq, hnblen, hnball⟩, hbnd, _, _, _, _⟩ :=
        BatchFixRecreated.process_org_loopInv now s fresh org hIds hRef hB hBlt
      have hnbne : nb ≠ [] := by
        intro hcon
        rw [hcon, List.length_nil] at hnblen
        omega
      obtain ⟨b0, hb0⟩ := List.exists_mem_of_ne_nil nb hnbne
      obtain ⟨hf, _, _, _⟩ := hnball b0 hb0
      have hpred : BatchFixRecreated.orgBatchPred org b0 = true := by
        unfold BatchFixRecreated.orgBatchPred
        rw [decide_eq_true_eq]
        exact ⟨hf.2.1, hf.2.2.2.2.2.2.2.2.2.2⟩
      have hfilterne : (BatchFixRecreated.processGroups false now org
          (BatchFixRecreated.get_unbatched_runs_for_org s org)
          (SensoBatch.runDays (BatchFixRecreated.get_unbatched_runs_for_org s org))
          ⟨s, 0, 0, fresh⟩).store.question_run_batches.filter
            (BatchFixRecreated.orgBatchPred org) ≠ [] := by
        apply List.ne_nil_of_mem (a := b0)
        rw [List.mem_filter]
        exact ⟨by rw [hnbeq]; exact List.mem_append_right _ hb0, hpred⟩
      exact BatchFixRecreated.update_latest_flags_for_org_exactly_one _ now org hbnd hfilterne
  · rw [BatchFixRecreated.process_org_fail_eq false now s stats fresh org
      (Bool.eq_false_iff.mpr hcheck)] at hcreated
    exact absurd (hcreated : stats.batches_created < stats.batches_created) (lt_irrefl _)

/-- Witness for C1 (amended) over `c5Store0`: one org, one unbatched run, no
existing batches; the real pass creates a batch and ends with exactly one
latest flag among the org's batches. -/
theorem c1_latest_flag_amended_witness :
    (((BatchFixRecreated.process_org false 864000000 SensoBatch.c5Store0
        SensoBatch.emptyStats 1000 1).store.question_run_batches.filter
        (BatchFixRecreated.orgBatchPred 1)).filter (fun b => b.is_latest)).length = 1 :=
  (c1_latest_flag_amended 864000000 SensoBatch.c5Store0 SensoBatch.emptyStats 1000 1
    (by decide) (by decide) (by decide) (by decide) (by decide)).1

/-- C9: every batch created by real-mode resolution carries
`status = completed`, `completed_questions = total_questions`,
`failed_questions = 0`, and its `total_questions` equals the number of runs
referencing it in the resulting store; at creation time (the end of the
resolution loop, before latest-flag maintenance) its `is_latest` is `false`
and its `started_at` is null.  New batches are recognised by an identifier
at or above the pass's fresh counter. -/
theorem c9_created_batch_fields (now : Nat) (s : SensoBatch.Store)
    (stats : SensoBatch.Stats) (fresh org : Nat)
    (hIds : (s.question_runs.map (fun r => r.question_run_id)).Nodup)
    (hRef : ∀ r ∈ s.question_runs, ∀ b, r.batch_id = some b → b < fresh)
    (hB : (s.question_run_batches.map (fun b => b.batch_id)).Nodup)
    (hBlt : ∀ b ∈ s.question_run_batches, b.batch_id < fresh) :
    (∀ b ∈ (BatchFixRecreated.process_org false now s stats
        fresh org).store.question_run_batches,
      fresh ≤ b.batch_id →
      b.status = "completed" ∧ b.completed_questions = b.total_questions ∧
      b.failed_questions = 0 ∧
      b.total_questions = (BatchFixRecreated.process_org false now s stats
        fresh org).store.question_runs.countP
          (fun r => decide (r.batch_id = some b.batch_id))) ∧
    (∀ b ∈ (BatchFixRecreated.processGroups false now org
        (BatchFixRecreated.get_unbatched_runs_for_org s org)
        (SensoBatch.runDays (BatchFixRecreated.get_unbatched_runs_for_org s org))
        ⟨s, 0, 0, fresh⟩).store.question_run_batches,
      fresh ≤ b.batch_id → b.is_latest = false ∧ b.started_at = none) := by
  obtain ⟨_, _, _, _, ⟨nb, hnbeq, hnblen, hnball⟩, hbnd, _, _, _, _⟩ :=
    BatchFixRecreated.process_org_loopInv now s fresh org hIds hRef hB hBlt
  have hnb_of_mem : ∀ b ∈ (BatchFixRecreated.processGroups false now org
      (BatchFixRecreated.get_unbatched_runs_for_org s org)
      (SensoBatch.runDays (BatchFixRecreated.get_unbatched_runs_for_org s org))
      ⟨s, 0, 0, fresh⟩).store.question_run_batches, fresh ≤ b.batch_id → b ∈ nb := by
    intro b hb hge
    rw [hnbeq] at hb
    rcases List.mem_append.mp hb with hold | hnew
    · have := hBlt b hold
      omega
    · exact hnew
  constructor
  · by_cases hcheck : BatchFixRecreated.check_org_exists s org = true
    · by_cases hne : BatchFixRecreated.get_unbatched_runs_for_org s org = []
      · rw [BatchFixRecreated.process_org_empty_eq false now s stats fresh org hcheck hne]
        intro b hb hge
        have := hBlt b hb
        omega
      · rw [BatchFixRecreated.process_org_real_cases now s stats fresh org hcheck hne]
        by_cases hpos : 0 < (BatchFixRecreated.processGroups false now org
            (BatchFixRecreated.get_unbatched_runs_for_org s org)
            (SensoBatch.runDays (BatchFixRecreated.get_unbatched_runs_for_org s org))
            ⟨s, 0, 0, fresh⟩).batches_created
        · rw [if_pos hpos]
          intro b' hb' hge
          obtain ⟨b, hbmem, hid, _, _, _, _, hstatus, htotal, hcompl, hfail, _, _, _⟩ :=
            BatchFixRecreated.update_latest_flags_for_org_shape _ now org b' hb'
          have hbnb : b ∈ nb := hnb_of_mem b hbmem (by omega)
          obtain ⟨hf, _, _, hcount⟩ := hnball b hbnb
          refine ⟨by rw [hstatus]; exact hf.2.2.2.2.1, ?_, ?_, ?_⟩
          · rw [hcompl, htotal]
            exact hf.2.2.2.2.2.1
          · rw [hfail]
            exact hf.2.2.2.2.2.2.1
          · rw [htotal, hcount, hid,
              (BatchFixRecreated.update_latest_flags_for_org_frame false _ now org).1]
        · rw [if_neg hpos]
          intro b hb hge
          have hbnb : b ∈ nb := hnb_of_mem b hb hge
          obtain ⟨hf, _, _, hcount⟩ := hnball b hbnb
          exact ⟨hf.2.2.2.2.1, hf.2.2.2.2.2.1, hf.2.2.2.2.2.2.1, hcount⟩
    · rw [BatchFixRecreated.process_org_fail_eq false now s stats fresh org
        (Bool.eq_false_iff.mpr hcheck)]
      intro b hb hge
      have := hBlt b hb
      omega
  · intro b hb hge
    have hbnb : b ∈ nb := hnb_of_mem b hb hge
    obtain ⟨hf, _, _, _⟩ := hnball b hbnb
    exact ⟨hf.2.2.2.2.2.2.2.1, hf.2.2.2.2.2.2.2.2.1⟩

/-- Witness for C9 over `c5Store0` at fresh counter 1000: the batch the pass
creates (identifier 1000) carries the claimed field values. -/
theorem c9_created_batch_fields_witness :
    (⟨1000, "org", some 1, none, "migration", "completed", 1, 1, 0, true,
        none, 864000000, 864000000, none⟩ : SensoBatch.Batch).status = "completed" ∧
    (⟨1000, "org", some 1, none, "migration", "completed", 1, 1, 0, true,
        none, 864000000, 864000000, none⟩ : SensoBatch.Batch).completed_questions
      = (⟨1000, "org", some 1, none, "migration", "completed", 1, 1, 0, true,
        none, 864000000, 864000000, none⟩ : SensoBatch.Batch).total_questions ∧
    (⟨1000, "org", some 1, none, "migration", "completed", 1, 1, 0, true,
        none, 864000000, 864000000, none⟩ : SensoBatch.Batch).failed_questions = 0 ∧
    (⟨1000, "org", some 1, none, "migration", "completed", 1, 1, 0, true,
        none, 864000000, 864000000, none⟩ : SensoBatch.Batch).total_questions
      = (BatchFixRecreated.process_org false 864000000 SensoBatch.c5Store0
          SensoBatch.emptyStats 1000 1).store.question_runs.countP
        (fun r => decide (r.batch_id = some
          (⟨1000, "org", some 1, none, "migration", "completed", 1, 1, 0, true,
            none, 864000000, 864000000, none⟩ : SensoBatch.Batch).batch_id)) :=
  (c9_created_batch_fields 864000000 SensoBatch.c5Store0 SensoBatch.emptyStats 1000 1
    (by decide) (by decide) (by decide) (by decide)).1
    ⟨1000, "org", some 1, none, "migration", "completed", 1, 1, 0, true,
      none, 864000000, 864000000, none⟩ (by decide) (by decide)

namespace NetworkBatchFix

open SensoBatch

theorem net_runHit_iff {ids : List Nat} {r : QuestionRun} :
    runHit ids r = true ↔ r.question_run_id ∈ ids := by
  simp [runHit]

theorem net_assignRun_id (now bid : Nat) (ids : List Nat) (r : QuestionRun) :
    (assignRun now bid ids r).question_run_id = r.question_run_id := by
  unfold assignRun
  split <;> rfl

theorem net_update_question_runs_real (s : Store) (now : Nat) (runs : List QuestionRun)
    (bid : Nat) :
    update_question_runs_with_batch false s now runs bid =
      ((s.question_runs.filter (runHit (runs.map (fun r => r.question_run_id)))).length,
        { s with question_runs :=
            s.question_runs.map (assignRun now bid (runs.map (fun r => r.question_run_id))) }) :=
  rfl

theorem net_create_batch_real (s : Store) (fresh now nid d n : Nat) :
    create_batch false s fresh now nid d n =
      (fresh,
        { s with question_run_batches := s.question_run_batches ++ [mkNewBatch nid fresh now n] },
        fresh + 1) := rfl

theorem net_count_group (s : Store) (nid : Nat) (runs : List QuestionRun)
    (hIds : (s.question_runs.map (fun r => r.question_run_id)).Nodup)
    (hruns : ∀ r ∈ runs, r ∈ s.question_runs)
    (hRunsNodup : (runs.map (fun r => r.question_run_id)).Nodup)
    (cur : List QuestionRun)
    (hmap : cur.map (fun r => r.question_run_id) = s.question_runs.map (fun r => r.question_run_id))
    (d : Nat) :
    (cur.filter (runHit ((groupFor runs d).map (fun r => r.question_run_id)))).length
      = (groupFor runs d).length := by
  set ids := (groupFor runs d).map (fun r => r.question_run_id) with hidsdef
  have hids_sub : ids ⊆ s.question_runs.map (fun r => r.question_run_id) := by
    intro i hi
    rw [hidsdef, List.mem_map] at hi
    obtain ⟨q, hq, rfl⟩ := hi
    exact List.mem_map.mpr ⟨q, hruns q (mem_groupFor.mp hq).1, rfl⟩
  have hids_nodup : ids.Nodup :=
    List.Nodup.sublist (List.Sublist.map _ (groupFor_sublist runs d)) hRunsNodup
  rw [← List.countP_eq_length_filter]
  have hpt : ∀ r' ∈ cur, runHit ids r' = decide (r'.question_run_id ∈ ids) := by
    intro r' _
    rfl
  rw [List.countP_congr (fun r' hr' => by rw [hpt r' hr'])]
  have e1 : cur.countP (fun r' => decide (r'.question_run_id ∈ ids))
      = (cur.map (fun r => r.question_run_id)).countP (fun i => decide (i ∈ ids)) :=
    (List.countP_map (fun i => decide (i ∈ ids)) (fun r : QuestionRun => r.question_run_id)
      cur).symm
  have e2 : s.question_runs.countP (fun r' => decide (r'.question_run_id ∈ ids))
      = (s.question_runs.map (fun r => r.question_run_id)).countP (fun i => decide (i ∈ ids)) :=
    (List.countP_map (fun i => decide (i ∈ ids)) (fun r : QuestionRun => r.question_run_id)
      s.question_runs).symm
  rw [e1, hmap, ← e2]
  exact (countP_proj_mem (fun r : QuestionRun => r.question_run_id)
    hIds hids_nodup hids_sub).trans (List.length_map _ _)

theorem net_processGroups_real_spec (s : Store) (now nid : Nat) (runs : List QuestionRun)
    (hIds : (s.question_runs.map (fun r => r.question_run_id)).Nodup)
    (hruns : ∀ r ∈ runs, r ∈ s.question_runs)
    (hRunsNodup : (runs.map (fun r => r.question_run_id)).Nodup) :
    ∀ (ds : List Nat) (st : BatchFixRecreated.GroupState),
      st.store.question_runs.map (fun r => r.question_run_id)
        = s.question_runs.map (fun r => r.question_run_id) →
      ((processGroups false now nid runs ds st).store.question_runs.map
        (fun r => r.question_run_id) = s.question_runs.map (fun r => r.question_run_id)) ∧
      (processGroups false now nid runs ds st).total_runs_updated
        = st.total_runs_updated + (ds.map (fun d => (groupFor runs d).length)).sum ∧
      (processGroups false now nid runs ds st).batches_created
        ≤ st.batches_created + ds.length := by
  intro ds
  induction ds with
  | nil =>
    intro st hmap
    exact ⟨hmap, rfl, Nat.le_refl _⟩
  | cons d rest ih =>
    intro st hmap
    rw [processGroups]
    have hcnt := net_count_group s nid runs hIds hruns hRunsNodup
      st.store.question_runs hmap d
    have hstep : ∀ st' : BatchFixRecreated.GroupState,
        st' = processGroup false now nid st d (groupFor runs d) →
        st'.store.question_runs.map (fun r => r.question_run_id)
            = s.question_runs.map (fun r => r.question_run_id) ∧
        st'.total_runs_updated = st.total_runs_updated + (groupFor runs d).length ∧
        st'.batches_created ≤ st.batches_created + 1 := by
      intro st' hst'
      have hmap' : ∀ (bid : Nat),
          (st.store.question_runs.map (assignRun now bid
            ((groupFor runs d).map (fun r => r.question_run_id)))).map
              (fun r => r.question_run_id)
            = s.question_runs.map (fun r => r.question_run_id) := by
        intro bid
        rw [List.map_map]
        have : ((fun r : QuestionRun => r.question_run_id) ∘ assignRun now bid
            ((groupFor runs d).map (fun r => r.question_run_id)))
            = (fun r : QuestionRun => r.question_run_id) := by
          funext r
          exact net_assignRun_id now bid _ r
        rw [this, hmap]
      unfold processGroup at hst'
      rw [if_neg (by simp)] at hst'
      cases hchk : check_existing_batch_for_date st.store nid d with
      | some bid =>
        rw [hchk] at hst'
        dsimp only at hst'
        rw [net_update_question_runs_real] at hst'
        subst hst'
        exact ⟨hmap' bid, by rw [hcnt], Nat.le_succ _⟩
      | none =>
        rw [hchk] at hst'
        dsimp only at hst'
        rw [net_create_batch_real, net_update_question_runs_real] at hst'
        subst hst'
        refine ⟨hmap' st.fresh, ?_, ?_⟩
        · show st.total_runs_updated + _ = _
          rw [hcnt]
        · show st.batches_created + 1 ≤ _
          omega
    obtain ⟨hm1, hm2, hm3⟩ := hstep _ rfl
    obtain ⟨ih1, ih2, ih3⟩ := ih (processGroup false now nid st d (groupFor runs d)) hm1
    refine ⟨ih1, ?_, ?_⟩
    · rw [ih2, hm2]
      simp only [List.map_cons, List.sum_cons]
      omega
    · calc (processGroups false now nid runs rest
            (processGroup false now nid st d (groupFor runs d))).batches_created
          ≤ (processGroup false now nid st d (groupFor runs d)).batches_created
            + rest.length := ih3
        _ ≤ (st.batches_created + 1) + rest.length := by omega
        _ = st.batches_created + (d :: rest).length := by
            simp only [List.length_cons]
            omega

theorem net_processGroups_dry_store (now nid : Nat) (runs : List QuestionRun) :
    ∀ (ds : List Nat) (st : BatchFixRecreated.GroupState),
      (processGroups true now nid runs ds st).store = st.store := by
  intro ds
  induction ds with
  | nil => intro st; rfl
  | cons d rest ih =>
    intro st
    rw [processGroups, ih]
    rfl

theorem net_processGroups_dry_total (now nid : Nat) (runs : List QuestionRun) :
    ∀ (ds : List Nat) (st : BatchFixRecreated.GroupState),
      (processGroups true now nid runs ds st).total_runs_updated
        = st.total_runs_updated + (ds.map (fun d => (groupFor runs d).length)).sum := by
  intro ds
  induction ds with
  | nil => intro st; rfl
  | cons d rest ih =>
    intro st
    rw [processGroups, ih]
    show (processGroup true now nid st d (groupFor runs d)).total_runs_updated + _ = _
    simp only [processGroup, if_pos]
    simp only [List.map_cons, List.sum_cons]
    omega

theorem net_processGroups_dry_created (now nid : Nat) (runs : List QuestionRun) :
    ∀ (ds : List Nat) (st : BatchFixRecreated.GroupState),
      (processGroups true now nid runs ds st).batches_created
        = st.batches_created + ds.length := by
  intro ds
  induction ds with
  | nil => intro st; rfl
  | cons d rest ih =>
    intro st
    rw [processGroups, ih]
    show (processGroup true now nid st d (groupFor runs d)).batches_created + _ = _
    simp only [processGroup, if_pos]
    simp only [List.length_cons]
    omega

theorem process_network_fail_eq (dry : Bool) (now : Nat) (s : Store) (stats : Stats)
    (fresh nid : Nat) (h : check_network_exists s nid = false) :
    process_network dry now s stats fresh nid =
      ⟨false, s, { stats with errors := stats.errors ++ [netMissingMsg nid] }, fresh⟩ := by
  unfold process_network
  rw [h]
  rfl

theorem process_network_empty_eq (dry : Bool) (now : Nat) (s : Store) (stats : Stats)
    (fresh nid : Nat) (h1 : check_network_exists s nid = true)
    (h2 : get_unbatched_runs_for_network s nid = []) :
    process_network dry now s stats fresh nid = ⟨true, s, stats, fresh⟩ := by
  unfold process_network
  rw [if_pos h1, h2]
  rfl

theorem process_network_main_eq (dry : Bool) (now : Nat) (s : Store) (stats : Stats)
    (fresh nid : Nat) (h1 : check_network_exists s nid = true)
    (h2 : ¬(get_unbatched_runs_for_network s nid = [])) :
    process_network dry now s stats fresh nid =
      { ok := true,
        store := if dry = false ∧ 0 < (processGroups dry now nid
            (get_unbatched_runs_for_network s nid)
            (runDays (get_unbatched_runs_for_network s nid)) ⟨s, 0, 0, fresh⟩).batches_created
          then (update_latest_flags_for_network false
            (processGroups dry now nid (get_unbatched_runs_for_network s nid)
              (runDays (get_unbatched_runs_for_network s nid)) ⟨s, 0, 0, fresh⟩).store now nid).2
          else (processGroups dry now nid (get_unbatched_runs_for_network s nid)
            (runDays (get_unbatched_runs_for_network s nid)) ⟨s, 0, 0, fresh⟩).store,
        stats := { stats with
          entities_processed := stats.entities_processed + 1,
          batches_created := stats.batches_created +
            (processGroups dry now nid (get_unbatched_runs_for_network s nid)
              (runDays (get_unbatched_runs_for_network s nid)) ⟨s, 0, 0, fresh⟩).batches_created,
          question_runs_updated := stats.question_runs_updated +
            (processGroups dry now nid (get_unbatched_runs_for_network s nid)
              (runDays (get_unbatched_runs_for_network s nid)) ⟨s, 0, 0, fresh⟩).total_runs_updated,
          total_questions_processed := stats.total_questions_processed +
            (processGroups dry now nid (get_unbatched_runs_for_network s nid)
              (runDays (get_unbatched_runs_for_network s nid)) ⟨s, 0, 0, fresh⟩).total_runs_updated },
        fresh := (processGroups dry now nid (get_unbatched_runs_for_network s nid)
          (runDays (get_unbatched_runs_for_network s nid)) ⟨s, 0, 0, fresh⟩).fresh } := by
  unfold process_network
  rw [if_pos h1]
  dsimp only
  rw [if_neg h2]

theorem net_fetch_runs_mem (s : Store) (nid : Nat) :
    ∀ r ∈ get_unbatched_runs_for_network s nid, r ∈ s.question_runs :=
  fun r hr => (mem_get_unbatched_runs_for_network.mp hr).1

theorem net_fetch_runs_nodup (s : Store) (nid : Nat)
    (hIds : (s.question_runs.map (fun r => r.question_run_id)).Nodup) :
    ((get_unbatched_runs_for_network s nid).map (fun r => r.question_run_id)).Nodup := by
  unfold get_unbatched_runs_for_network
  have hperm := (sortRuns_perm (s.question_runs.filter (fun qr =>
    decide (qr.batch_id = none ∧
      ∃ gq ∈ s.geo_questions, gq.geo_question_id = qr.geo_question_id ∧
        gq.network_id = some nid ∧ gq.scope = "network")))).map
    (fun r : QuestionRun => r.question_run_id)
  apply hperm.symm.nodup
  exact List.Nodup.sublist (List.Sublist.map _ (List.filter_sublist _)) hIds

end NetworkBatchFix

/-- C4 (amended): over any snapshot, the dry-run and real-mode statistics of
a per-entity pass agree on success/failure, entities processed, runs
updated, questions processed and errors — but not on batches created: the
real org pass counts only day groups whose lookup finds no existing batch,
while dry-run counts every day group; for the network pass the real count
is at most the dry-run count.  Identifier hypotheses as for C1. -/
theorem c4_dry_run_stats_amended (now : Nat) (s : SensoBatch.Store)
    (stats : SensoBatch.Stats) (fresh org nid : Nat)
    (hIds : (s.question_runs.map (fun r => r.question_run_id)).Nodup)
    (hRef : ∀ r ∈ s.question_runs, ∀ b, r.batch_id = some b → b < fresh)
    (hB : (s.question_run_batches.map (fun b => b.batch_id)).Nodup)
    (hBlt : ∀ b ∈ s.question_run_batches, b.batch_id < fresh) :
    ((BatchFixRecreated.process_org true now s stats fresh org).ok
        = (BatchFixRecreated.process_org false now s stats fresh org).ok ∧
      (BatchFixRecreated.process_org true now s stats fresh org).stats.entities_processed
        = (BatchFixRecreated.process_org false now s stats fresh org).stats.entities_processed ∧
      (BatchFixRecreated.process_org true now s stats fresh org).stats.question_runs_updated
        = (BatchFixRecreated.process_org false now s stats fresh org).stats.question_runs_updated ∧
      (BatchFixRecreated.process_org true now s stats fresh org).stats.total_questions_processed
        = (BatchFixRecreated.process_org false now s stats
            fresh org).stats.total_questions_processed ∧
      (BatchFixRecreated.process_org true now s stats fresh org).stats.errors
        = (BatchFixRecreated.process_org false now s stats fresh org).stats.errors ∧
      (BatchFixRecreated.check_org_exists s org = true →
        (BatchFixRecreated.process_org false now s stats fresh org).stats.batches_created
          = stats.batches_created +
            (SensoBatch.runDays (BatchFixRecreated.get_unbatched_runs_for_org s org)).countP
              (fun d => (BatchFixRecreated.check_existing_batch_for_date s org d).isNone) ∧
        (BatchFixRecreated.process_org true now s stats fresh org).stats.batches_created
          = stats.batches_created +
            (SensoBatch.runDays (BatchFixRecreated.get_unbatched_runs_for_org s org)).length)) ∧
    ((NetworkBatchFix.process_network true now s stats fresh nid).ok
        = (NetworkBatchFix.process_network false now s stats fresh nid).ok ∧
      (NetworkBatchFix.process_network true now s stats fresh nid).stats.entities_processed
        = (NetworkBatchFix.process_network false now s stats fresh nid).stats.entities_processed ∧
      (NetworkBatchFix.process_network true now s stats fresh nid).stats.question_runs_updated
        = (NetworkBatchFix.process_network false now s stats
            fresh nid).stats.question_runs_updated ∧
      (NetworkBatchFix.process_network true now s stats fresh nid).stats.total_questions_processed
        = (NetworkBatchFix.process_network false now s stats
            fresh nid).stats.total_questions_processed ∧
      (NetworkBatchFix.process_network true now s stats fresh nid).stats.errors
        = (NetworkBatchFix.process_network false now s stats fresh nid).stats.errors ∧
      (NetworkBatchFix.process_network false now s stats fresh nid).stats.batches_created
        ≤ (NetworkBatchFix.process_network true now s stats fresh nid).stats.batches_created) := by
  constructor
  · by_cases hcheck : BatchFixRecreated.check_org_exists s org = true
    · by_cases hne : BatchFixRecreated.get_unbatched_runs_for_org s org = []
      · rw [BatchFixRecreated.process_org_empty_eq true now s stats fresh org hcheck hne,
          BatchFixRecreated.process_org_empty_eq false now s stats fresh org hcheck hne]
        refine ⟨rfl, rfl, rfl, rfl, rfl, fun _ => ⟨?_, ?_⟩⟩
        · rw [hne]
          rfl
        · rw [hne]
          rfl
      · rw [BatchFixRecreated.process_org_real_cases now s stats fresh org hcheck hne,
          BatchFixRecreated.process_org_dry_eq now s stats fresh org hcheck hne]
        obtain ⟨_, _, _, _, _, _, _, _, htot, hcre⟩ :=
          BatchFixRecreated.process_org_loopInv now s fresh org hIds hRef hB hBlt
        refine ⟨rfl, rfl, ?_, ?_, rfl, fun _ => ⟨?_, ?_⟩⟩
        · show stats.question_runs_updated + _ = stats.question_runs_updated + _
          rw [htot]
        · show stats.total_questions_processed + _ = stats.total_questions_processed + _
          rw [htot]
        · show stats.batches_created + _ = stats.batches_created + _
          rw [hcre]
        · rfl
    · rw [BatchFixRecreated.process_org_fail_eq true now s stats fresh org
        (Bool.eq_false_iff.mpr hcheck),
        BatchFixRecreated.process_org_fail_eq false now s stats fresh org
        (Bool.eq_false_iff.mpr hcheck)]
      exact ⟨rfl, rfl, rfl, rfl, rfl, fun hcon => absurd hcon hcheck⟩
  · by_cases hcheck : NetworkBatchFix.check_network_exists s nid = true
    · by_cases hne : NetworkBatchFix.get_unbatched_runs_for_network s nid = []
      · rw [NetworkBatchFix.process_network_empty_eq true now s stats fresh nid hcheck hne,
          NetworkBatchFix.process_network_empty_eq false now s stats fresh nid hcheck hne]
        exact ⟨rfl, rfl, rfl, rfl, rfl, Nat.le_refl _⟩
      · rw [NetworkBatchFix.process_network_main_eq true now s stats fresh nid hcheck hne,
          NetworkBatchFix.process_network_main_eq false now s stats fresh nid hcheck hne]
        obtain ⟨_, htotN, hbcN⟩ := NetworkBatchFix.net_processGroups_real_spec s now nid
          (NetworkBatchFix.get_unbatched_runs_for_network s nid) hIds
          (NetworkBatchFix.net_fetch_runs_mem s nid)
          (NetworkBatchFix.net_fetch_runs_nodup s nid hIds)
          (SensoBatch.runDays (NetworkBatchFix.get_unbatched_runs_for_network s nid))
          ⟨s, 0, 0, fresh⟩ rfl
        have hdryTot := NetworkBatchFix.net_processGroups_dry_total now nid
          (NetworkBatchFix.get_unbatched_runs_for_network s nid)
          (SensoBatch.runDays (NetworkBatchFix.get_unbatched_runs_for_network s nid))
          ⟨s, 0, 0, fresh⟩
        have hdryBc := NetworkBatchFix.net_processGroups_dry_created now nid
          (NetworkBatchFix.get_unbatched_runs_for_network s nid)
          (SensoBatch.runDays (NetworkBatchFix.get_unbatched_runs_for_network s nid))
          ⟨s, 0, 0, fresh⟩
        refine ⟨rfl, rfl, ?_, ?_, rfl, ?_⟩
        · show stats.question_runs_updated + _ = stats.question_runs_updated + _
          rw [hdryTot, htotN]
        · show stats.total_questions_processed + _ = stats.total_questions_processed + _
          rw [hdryTot, htotN]
        · show stats.batches_created + _ ≤ stats.batches_created + _
          rw [hdryBc]
          have h0 : (0 : Nat) + (SensoBatch.runDays
              (NetworkBatchFix.get_unbatched_runs_for_network s nid)).length
              = (SensoBatch.runDays
                (NetworkBatchFix.get_unbatched_runs_for_network s nid)).length := by omega
          omega
    · rw [NetworkBatchFix.process_network_fail_eq true now s stats fresh nid
        (Bool.eq_false_iff.mpr hcheck),
        NetworkBatchFix.process_network_fail_eq false now s stats fresh nid
        (Bool.eq_false_iff.mpr hcheck)]
      exact ⟨rfl, rfl, rfl, rfl, rfl, Nat.le_refl _⟩

/-- Witness for C4 (amended) over `ce1Store`: the real pass reuses the
existing batch while the dry-run counts one created batch, yet runs
updated and entities processed agree. -/
theorem c4_dry_run_stats_amended_witness :
    (BatchFixRecreated.process_org true 900000 SensoBatch.ce1Store
        SensoBatch.emptyStats 1000 1).stats.question_runs_updated
      = (BatchFixRecreated.process_org false 900000 SensoBatch.ce1Store
          SensoBatch.emptyStats 1000 1).stats.question_runs_updated :=
  (c4_dry_run_stats_amended 900000 SensoBatch.ce1Store SensoBatch.emptyStats 1000 1 2
    (by decide) (by decide) (by decide) (by decide)).1.2.2.1

namespace SensoBatch

theorem runPres_refl (r : QuestionRun) : runPres r r :=
  ⟨rfl, rfl, rfl, rfl, Or.inl rfl⟩

theorem runPres_trans {a b c : QuestionRun} (h1 : runPres a b) (h2 : runPres b c) :
    runPres a c := by
  obtain ⟨i1, g1, c1, d1, b1⟩ := h1
  obtain ⟨i2, g2, c2, d2, b2⟩ := h2
  refine ⟨i2.trans i1, g2.trans g1, c2.trans c1, d2.trans d1, ?_⟩
  rcases b2 with hsame | ⟨x, hx⟩
  · rcases b1 with hsame' | ⟨y, hy⟩
    · exact Or.inl (hsame.trans hsame')
    · exact Or.inr ⟨y, hsame.trans hy⟩
  · exact Or.inr ⟨x, hx⟩

theorem storeEvolves_refl (s : Store) : storeEvolves s s :=
  ⟨rfl, rfl, rfl, forall₂_refl_of (fun r _ => runPres_refl r)⟩

theorem forall₂_trans_gen {α : Type} {R : α → α → Prop}
    (htrans : ∀ a b c, R a b → R b c → R a c) :
    ∀ {l₁ l₂ l₃ : List α}, List.Forall₂ R l₁ l₂ → List.Forall₂ R l₂ l₃ →
      List.Forall₂ R l₁ l₃ := by
  intro l₁ l₂ l₃ h12
  induction h12 generalizing l₃ with
  | nil =>
    intro h23
    cases h23
    exact List.Forall₂.nil
  | cons hab htail ih =>
    intro h23
    cases h23 with
    | cons hbc htail' => exact List.Forall₂.cons (htrans _ _ _ hab hbc) (ih htail')

theorem storeEvolves_trans {s t u : Store} (h1 : storeEvolves s t) (h2 : storeEvolves t u) :
    storeEvolves s u :=
  ⟨h2.1.trans h1.1, h2.2.1.trans h1.2.1, h2.2.2.1.trans h1.2.2.1,
    @forall₂_trans_gen QuestionRun runPres (fun _ _ _ hab hbc => runPres_trans hab hbc)
      _ _ _ h1.2.2.2 h2.2.2.2⟩

theorem noEligibleUnbatched_mono {t t' : Store} {o : Nat}
    (h : noEligibleUnbatched t o) (hev : storeEvolves t t') : noEligibleUnbatched t' o := by
  intro r' hr' hdel hgq hbatch
  obtain ⟨r, hr, hpres⟩ := forall₂_mem_right hev.2.2.2 r' hr'
  have hrb : r.batch_id = none := by
    rcases hpres.2.2.2.2 with hsame | ⟨x, hx⟩
    · rw [← hsame]
      exact hbatch
    · rw [hx] at hbatch
      cases hbatch
  apply h r hr (by rw [← hpres.2.2.2.1]; exact hdel) ?_ hrb
  obtain ⟨gq, hgqmem, hgq1, hgq2, hgq3⟩ := hgq
  rw [hev.1] at hgqmem
  exact ⟨gq, hgqmem, by rw [hgq1]; exact hpres.2.1, hgq2, hgq3⟩

end SensoBatch

namespace BatchFixRecreated

open SensoBatch

theorem check_org_exists_congr {s s' : Store} (h : s'.orgs = s.orgs) (o : Nat) :
    check_org_exists s' o = check_org_exists s o := by
  unfold check_org_exists
  rw [h]

theorem processGroups_real_tables (now org : Nat) (runs : List QuestionRun) :
    ∀ (ds : List Nat) (st : GroupState),
      (processGroups false now org runs ds st).store.geo_questions
        = st.store.geo_questions ∧
      (processGroups false now org runs ds st).store.orgs = st.store.orgs ∧
      (processGroups false now org runs ds st).store.networks = st.store.networks := by
  intro ds
  induction ds with
  | nil => intro st; exact ⟨rfl, rfl, rfl⟩
  | cons d rest ih =>
    intro st
    rw [processGroups]
    have hstep : (processGroup false now org st d (groupFor runs d)).store.geo_questions
        = st.store.geo_questions ∧
      (processGroup false now org st d (groupFor runs d)).store.orgs = st.store.orgs ∧
      (processGroup false now org st d (groupFor runs d)).store.networks
        = st.store.networks := by
      unfold processGroup
      rw [if_neg (by simp)]
      cases hchk : check_existing_batch_for_date st.store org d with
      | some bid =>
        dsimp only
        rw [update_question_runs_real]
        exact ⟨rfl, rfl, rfl⟩
      | none =>
        dsimp only
        rw [create_batch_real, update_question_runs_real]
        exact ⟨rfl, rfl, rfl⟩
    obtain ⟨i1, i2, i3⟩ := ih (processGroup false now org st d (groupFor runs d))
    exact ⟨i1.trans hstep.1, i2.trans hstep.2.1, i3.trans hstep.2.2⟩

theorem process_org_tables (dry : Bool) (now : Nat) (s : Store) (stats : Stats)
    (fresh org : Nat) :
    (process_org dry now s stats fresh org).store.geo_questions = s.geo_questions ∧
    (process_org dry now s stats fresh org).store.orgs = s.orgs ∧
    (process_org dry now s stats fresh org).store.networks = s.networks := by
  cases dry with
  | true =>
    rw [process_org_dry_store]
    exact ⟨rfl, rfl, rfl⟩
  | false =>
    by_cases hcheck : check_org_exists s org = true
    · by_cases hne : get_unbatched_runs_for_org s org = []
      · rw [process_org_empty_eq false now s stats fresh org hcheck hne]
        exact ⟨rfl, rfl, rfl⟩
      · rw [process_org_real_cases now s stats fresh org hcheck hne]
        have hloop := processGroups_real_tables now org (get_unbatched_runs_for_org s org)
          (runDays (get_unbatched_runs_for_org s org)) ⟨s, 0, 0, fresh⟩
        by_cases hpos : 0 < (processGroups false now org (get_unbatched_runs_for_org s org)
            (runDays (get_unbatched_runs_for_org s org)) ⟨s, 0, 0, fresh⟩).batches_created
        · rw [if_pos hpos]
          have hfr := update_latest_flags_for_org_frame false
            (processGroups false now org (get_unbatched_runs_for_org s org)
              (runDays (get_unbatched_runs_for_org s org)) ⟨s, 0, 0, fresh⟩).store now org
          exact ⟨hfr.2.1.trans hloop.1, hfr.2.2.1.trans hloop.2.1,
            hfr.2.2.2.trans hloop.2.2⟩
        · rw [if_neg hpos]
          exact hloop
    · rw [process_org_fail_eq false now s stats fresh org (Bool.eq_false_iff.mpr hcheck)]
      exact ⟨rfl, rfl, rfl⟩

theorem process_org_errors_shape (dry : Bool) (now : Nat) (s : Store) (stats : Stats)
    (fresh org : Nat) :
    ∃ t, (process_org dry now s stats fresh org).stats.errors = stats.errors ++ t := by
  by_cases hcheck : check_org_exists s org = true
  · by_cases hne : get_unbatched_runs_for_org s org = []
    · rw [process_org_empty_eq dry now s stats fresh org hcheck hne]
      exact ⟨[], (List.append_nil _).symm⟩
    · cases dry with
      | true =>
        rw [process_org_dry_eq now s stats fresh org hcheck hne]
        exact ⟨[], (List.append_nil _).symm⟩
      | false =>
        rw [process_org_real_cases now s stats fresh org hcheck hne]
        exact ⟨[], (List.append_nil _).symm⟩
  · rw [process_org_fail_eq dry now s stats fresh org (Bool.eq_false_iff.mpr hcheck)]
    exact ⟨[orgMissingMsg org], rfl⟩

end BatchFixRecreated

namespace BatchFixRecreated

open SensoBatch

theorem processGroups_light_run (now org : Nat) (runs : List QuestionRun) (s0 : Store)
    (hfetch : ∀ r ∈ runs, r.deleted_at = none) :
    ∀ (ds dsDone : List Nat) (st : GroupState),
      List.Forall₂ (fun r r' => runPres r r' ∧
        ((r ∈ runs ∧ dayOf r.created_at ∈ dsDone) → r'.batch_id ≠ none))
        s0.question_runs st.store.question_runs →
      List.Forall₂ (fun r r' => runPres r r' ∧
        ((r ∈ runs ∧ dayOf r.created_at ∈ dsDone ++ ds) → r'.batch_id ≠ none))
        s0.question_runs (processGroups false now org runs ds st).store.question_runs := by
  intro ds
  induction ds with
  | nil =>
    intro dsDone st h
    rw [processGroups]
    apply forall₂_mem_imp h
    intro r _ r' _ hrr'
    refine ⟨hrr'.1, fun hc => hrr'.2 ⟨hc.1, ?_⟩⟩
    rw [List.append_nil] at hc
    exact hc.2
  | cons d rest ih =>
    intro dsDone st h
    rw [processGroups]
    have hstep : List.Forall₂ (fun r r' => runPres r r' ∧
        ((r ∈ runs ∧ dayOf r.created_at ∈ dsDone ++ [d]) → r'.batch_id ≠ none))
        s0.question_runs
        ((processGroup false now org st d (groupFor runs d)).store.question_runs) := by
      set ids := (groupFor runs d).map (fun r => r.question_run_id) with hidsdef
      have hassign : ∀ (bid : Nat),
          List.Forall₂ (fun r r' => runPres r r' ∧
            ((r ∈ runs ∧ dayOf r.created_at ∈ dsDone ++ [d]) → r'.batch_id ≠ none))
            s0.question_runs
            (st.store.question_runs.map (assignRun now bid ids)) := by
        intro bid
        rw [List.forall₂_map_right_iff]
        apply forall₂_mem_imp h
        intro r _ r' _ hrr'
        constructor
        · refine ⟨by rw [assignRun_question_run_id]; exact hrr'.1.1,
            by rw [assignRun_geo_question_id]; exact hrr'.1.2.1,
            by rw [assignRun_created_at]; exact hrr'.1.2.2.1,
            by rw [assignRun_deleted_at]; exact hrr'.1.2.2.2.1, ?_⟩
          unfold assignRun
          split
          · exact Or.inr ⟨bid, rfl⟩
          · exact hrr'.1.2.2.2.2
        · intro ⟨hmem, hday⟩
          rcases List.mem_append.mp hday with hdone | hd
          · have hprev : r'.batch_id ≠ none := hrr'.2 ⟨hmem, hdone⟩
            unfold assignRun
            split
            · simp
            · exact hprev
          · rw [List.mem_singleton] at hd
            have hrg : r ∈ groupFor runs d := mem_groupFor.mpr ⟨hmem, hd⟩
            have hhit : runHit ids r' = true := by
              rw [runHit_iff]
              constructor
              · rw [hrr'.1.1, hidsdef]
                exact List.mem_map.mpr ⟨r, hrg, rfl⟩
              · rw [hrr'.1.2.2.2.1]
                exact hfetch r hmem
            rw [assignRun_hit now bid ids r' hhit]
            simp
      unfold processGroup
      rw [if_neg (by simp)]
      cases hchk : check_existing_batch_for_date st.store org d with
      | some bid =>
        dsimp only
        rw [update_question_runs_real]
        exact hassign bid
      | none =>
        dsimp only
        rw [create_batch_real, update_question_runs_real]
        exact hassign st.fresh
    have hres := ih (dsDone ++ [d]) (processGroup false now org st d (groupFor runs d)) hstep
    apply forall₂_mem_imp hres
    intro r _ r' _ hrr'
    refine ⟨hrr'.1, fun hc => hrr'.2 ⟨hc.1, ?_⟩⟩
    rw [List.append_assoc]
    exact hc.2

theorem process_org_light (now : Nat) (s : Store) (stats : Stats) (fresh org : Nat)
    (hcheck : check_org_exists s org = true) :
    (process_org false now s stats fresh org).ok = true ∧
    storeEvolves s (process_org false now s stats fresh org).store ∧
    noEligibleUnbatched (process_org false now s stats fresh org).store org := by
  by_cases hne : get_unbatched_runs_for_org s org = []
  · rw [process_org_empty_eq false now s stats fresh org hcheck hne]
    refine ⟨rfl, storeEvolves_refl s, ?_⟩
    intro r hr hdel hgq hbatch
    have : r ∈ get_unbatched_runs_for_org s org := by
      rw [mem_get_unbatched_runs_for_org]
      obtain ⟨gq, h1, h2, h3, h4⟩ := hgq
      exact ⟨hr, hbatch, hdel, gq, h1, h2, h3, h4⟩
    rw [hne] at this
    cases this
  · have hloop := processGroups_light_run now org (get_unbatched_runs_for_org s org) s
      (fun r hr => (mem_get_unbatched_runs_for_org.mp hr).2.2.1)
      (runDays (get_unbatched_runs_for_org s org)) [] ⟨s, 0, 0, fresh⟩
      (forall₂_refl_of (fun r _ => ⟨runPres_refl r, fun hc => absurd hc.2 (by simp)⟩))
    rw [List.nil_append] at hloop
    have htab := processGroups_real_tables now org (get_unbatched_runs_for_org s org)
      (runDays (get_unbatched_runs_for_org s org)) ⟨s, 0, 0, fresh⟩
    rw [process_org_real_cases now s stats fresh org hcheck hne]
    have hmain : ∀ (t : Store),
        t.question_runs = (processGroups false now org (get_unbatched_runs_for_org s org)
          (runDays (get_unbatched_runs_for_org s org)) ⟨s, 0, 0, fresh⟩).store.question_runs →
        t.geo_questions = s.geo_questions → t.orgs = s.orgs → t.networks = s.networks →
        storeEvolves s t ∧ noEligibleUnbatched t org := by
      intro t hruns hgeo horgs hnets
      constructor
      · refine ⟨hgeo, horgs, hnets, ?_⟩
        rw [hruns]
        apply forall₂_mem_imp hloop
        intro r _ r' _ hrr'
        exact hrr'.1
      · intro r' hr' hdel hgq hbatch
        rw [hruns] at hr'
        obtain ⟨r, hr, hrr'⟩ := forall₂_mem_right hloop r' hr'
        have hrb : r.batch_id = none := by
          rcases hrr'.1.2.2.2.2 with hsame | ⟨x, hx⟩
          · rw [← hsame]
            exact hbatch
          · rw [hx] at hbatch
            cases hbatch
        have hrfetch : r ∈ get_unbatched_runs_for_org s org := by
          rw [mem_get_unbatched_runs_for_org]
          obtain ⟨gq, h1, h2, h3, h4⟩ := hgq
          rw [hgeo] at h1
          refine ⟨hr, hrb, by rw [← hrr'.1.2.2.2.1]; exact hdel, gq, h1, ?_, h3, h4⟩
          rw [h2]
          exact hrr'.1.2.1
        have hday : dayOf r.created_at ∈ runDays (get_unbatched_runs_for_org s org) :=
          mem_runDays.mpr ⟨r, hrfetch, rfl⟩
        exact absurd hbatch (by
          have := hrr'.2 ⟨hrfetch, hday⟩
          exact this)
    by_cases hpos : 0 < (processGroups false now org (get_unbatched_runs_for_org s org)
        (runDays (get_unbatched_runs_for_org s org)) ⟨s, 0, 0, fresh⟩).batches_created
    · rw [if_pos hpos]
      have hfr := update_latest_flags_for_org_frame false
        (processGroups false now org (get_unbatched_runs_for_org s org)
          (runDays (get_unbatched_runs_for_org s org)) ⟨s, 0, 0, fresh⟩).store now org
      have := hmain _ hfr.1 (hfr.2.1.trans htab.1) (hfr.2.2.1.trans htab.2.1)
        (hfr.2.2.2.trans htab.2.2)
      exact ⟨rfl, this.1, this.2⟩
    · rw [if_neg hpos]
      have := hmain _ rfl htab.1 htab.2.1 htab.2.2
      exact ⟨rfl, this.1, this.2⟩

end BatchFixRecreated

namespace BatchFixRecreated

open SensoBatch

theorem process_org_list_cons_ok (now o : Nat) (rest : List Nat) (rs : RunState)
    (h : (process_org false now rs.store rs.stats rs.fresh o).ok = true) :
    process_org_list false now (o :: rest) rs
      = process_org_list false now rest
          ⟨(process_org false now rs.store rs.stats rs.fresh o).store,
            (process_org false now rs.store rs.stats rs.fresh o).stats,
            (process_org false now rs.store rs.stats rs.fresh o).fresh⟩ := by
  rw [process_org_list, if_pos h]

theorem process_org_list_cons_fail (now o : Nat) (rest : List Nat) (rs : RunState)
    (h : check_org_exists rs.store o = false) :
    process_org_list false now (o :: rest) rs
      = process_org_list false now rest
          ⟨rs.store, { rs.stats with errors := rs.stats.errors ++ [orgMissingMsg o] },
            rs.fresh⟩ := by
  rw [process_org_list, process_org_fail_eq false now rs.store rs.stats rs.fresh o h]
  rfl

theorem process_org_list_spec (now : Nat) :
    ∀ (l : List Nat) (rs : RunState),
      storeEvolves rs.store (process_org_list false now l rs).store ∧
      (∀ o ∈ l, check_org_exists rs.store o = true →
        noEligibleUnbatched (process_org_list false now l rs).store o) ∧
      (∀ o ∈ l, check_org_exists rs.store o = false →
        orgMissingMsg o ∈ (process_org_list false now l rs).stats.errors) ∧
      (∃ t, (process_org_list false now l rs).stats.errors = rs.stats.errors ++ t) := by
  intro l
  induction l with
  | nil =>
    intro rs
    exact ⟨storeEvolves_refl _, fun o ho => absurd ho (List.not_mem_nil o),
      fun o ho => absurd ho (List.not_mem_nil o), ⟨[], (List.append_nil _).symm⟩⟩
  | cons o rest ih =>
    intro rs
    by_cases hchk : check_org_exists rs.store o = true
    · have hlight := process_org_light now rs.store rs.stats rs.fresh o hchk
      rw [process_org_list_cons_ok now o rest rs hlight.1]
      obtain ⟨ihev, ihnoelig, iherr, iherrs⟩ :=
        ih ⟨(process_org false now rs.store rs.stats rs.fresh o).store,
          (process_org false now rs.store rs.stats rs.fresh o).stats,
          (process_org false now rs.store rs.stats rs.fresh o).fresh⟩
      have hcheck_pres : ∀ o' : Nat,
          check_org_exists (process_org false now rs.store rs.stats rs.fresh o).store o'
            = check_org_exists rs.store o' :=
        fun o' => check_org_exists_congr
          (process_org_tables false now rs.store rs.stats rs.fresh o).2.1 o'
      refine ⟨storeEvolves_trans hlight.2.1 ihev, ?_, ?_, ?_⟩
      · intro o' ho' hchko'
        rcases List.mem_cons.mp ho' with rfl | hmem
        · exact noEligibleUnbatched_mono hlight.2.2 ihev
        · exact ihnoelig o' hmem (by rw [hcheck_pres]; exact hchko')
      · intro o' ho' hchko'
        rcases List.mem_cons.mp ho' with rfl | hmem
        · rw [hchko'] at hchk
          cases hchk
        · exact iherr o' hmem (by rw [hcheck_pres]; exact hchko')
      · obtain ⟨t1, ht1⟩ := process_org_errors_shape false now rs.store rs.stats rs.fresh o
        obtain ⟨t2, ht2⟩ := iherrs
        refine ⟨t1 ++ t2, ?_⟩
        rw [ht2]
        show (process_org false now rs.store rs.stats rs.fresh o).stats.errors ++ t2 = _
        rw [ht1, List.append_assoc]
    · rw [process_org_list_cons_fail now o rest rs (Bool.eq_false_iff.mpr hchk)]
      obtain ⟨ihev, ihnoelig, iherr, iherrs⟩ :=
        ih ⟨rs.store, { rs.stats with errors := rs.stats.errors ++ [orgMissingMsg o] }, rs.fresh⟩
      obtain ⟨t2, ht2⟩ := iherrs
      have hmsg : orgMissingMsg o ∈ (process_org_list false now rest
          ⟨rs.store, { rs.stats with errors := rs.stats.errors ++ [orgMissingMsg o] },
            rs.fresh⟩).stats.errors := by
        rw [ht2]
        show orgMissingMsg o ∈ (rs.stats.errors ++ [orgMissingMsg o]) ++ t2
        exact List.mem_append_left _
          (List.mem_append_right _ (List.mem_singleton.mpr rfl))
      refine ⟨ihev, ?_, ?_, ?_⟩
      · intro o' ho' hchko'
        rcases List.mem_cons.mp ho' with rfl | hmem
        · rw [hchko'] at hchk
          cases hchk rfl
        · exact ihnoelig o' hmem hchko'
      · intro o' ho' hchko'
        rcases List.mem_cons.mp ho' with rfl | hmem
        · exact hmsg
        · exact iherr o' hmem hchko'
      · refine ⟨[orgMissingMsg o] ++ t2, ?_⟩
        rw [ht2]
        show (rs.stats.errors ++ [orgMissingMsg o]) ++ t2 = _
        rw [List.append_assoc]

end BatchFixRecreated

namespace SensoBatch

theorem forall₂_right_mem {α β : Type} {R : α → β → Prop} :
    ∀ {l : List α} {l' : List β}, List.Forall₂ R l l' → ∀ b ∈ l', ∃ a ∈ l, R a b := by
  intro l l' h
  induction h with
  | nil =>
    intro b hb
    cases hb
  | cons hab _ ih =>
    intro b hb
    rcases List.mem_cons.mp hb with rfl | hmem
    · exact ⟨_, List.mem_cons_self _ _, hab⟩
    · obtain ⟨a, ha, har⟩ := ih b hmem
      exact ⟨a, List.mem_cons_of_mem _ ha, har⟩

end SensoBatch

namespace BatchFixRecreated

open SensoBatch

theorem fetch_empty_of_noElig {s : Store} {o : Nat} (h : noEligibleUnbatched s o) :
    get_unbatched_runs_for_org s o = [] := by
  rw [List.eq_nil_iff_forall_not_mem]
  intro r hr
  rw [mem_get_unbatched_runs_for_org] at hr
  obtain ⟨hmem, hb, hd, gq, hgq, hid, ho, hgd⟩ := hr
  exact h r hmem hd ⟨gq, hgq, hid, ho, hgd⟩ hb

theorem process_org_list_noop (now : Nat) :
    ∀ (l : List Nat) (rs : RunState),
      (∀ o ∈ l, check_org_exists rs.store o = false ∨ noEligibleUnbatched rs.store o) →
      (process_org_list false now l rs).store = rs.store ∧
      (process_org_list false now l rs).stats.batches_created = rs.stats.batches_created ∧
      (process_org_list false now l rs).stats.question_runs_updated
        = rs.stats.question_runs_updated ∧
      (process_org_list false now l rs).fresh = rs.fresh := by
  intro l
  induction l with
  | nil =>
    intro rs _
    exact ⟨rfl, rfl, rfl, rfl⟩
  | cons o rest ih =>
    intro rs hpred
    by_cases hchk : check_org_exists rs.store o = true
    · have hnoelig : noEligibleUnbatched rs.store o := by
        rcases hpred o (List.mem_cons_self o rest) with hf | hn
        · rw [hchk] at hf
          cases hf
        · exact hn
      rw [process_org_list_cons_ok now o rest rs
        (by rw [process_org_empty_eq false now rs.store rs.stats rs.fresh o hchk
          (fetch_empty_of_noElig hnoelig)])]
      rw [process_org_empty_eq false now rs.store rs.stats rs.fresh o hchk
        (fetch_empty_of_noElig hnoelig)]
      exact ih rs (fun o' ho' => hpred o' (List.mem_cons_of_mem o ho'))
    · rw [process_org_list_cons_fail now o rest rs (Bool.eq_false_iff.mpr hchk)]
      exact ih ⟨rs.store, { rs.stats with errors := rs.stats.errors ++ [orgMissingMsg o] },
          rs.fresh⟩
        (fun o' ho' => hpred o' (List.mem_cons_of_mem o ho'))

theorem enum_mono_back {s t : Store} (hev : storeEvolves s t) :
    ∀ o ∈ get_orgs_with_unbatched_runs t, o ∈ get_orgs_with_unbatched_runs s := by
  intro o ho
  rw [mem_get_orgs_with_unbatched_runs] at ho ⊢
  obtain ⟨qr, hqr, hb, hd, gq, hgq, hid, hgd, hgo⟩ := ho
  obtain ⟨r, hrmem, hpres⟩ := forall₂_right_mem hev.2.2.2 qr hqr
  obtain ⟨h1, h2, h3, h4, h5⟩ := hpres
  refine ⟨r, hrmem, ?_, ?_, gq, ?_, ?_, hgd, hgo⟩
  · rcases h5 with h5 | ⟨b, h5⟩
    · rw [← h5]; exact hb
    · rw [h5] at hb; cases hb
  · rw [← h4]; exact hd
  · rw [← hev.1]; exact hgq
  · rw [← h2]; exact hid

end BatchFixRecreated

/-- C2: a second full real-mode org pass over the store produced by a first
real-mode pass changes nothing: the store is returned unchanged, zero
batches are created and zero runs are updated; and when the first pass
recorded no errors, the second pass's org enumeration is empty. -/
theorem c2_second_pass_is_noop (s : SensoBatch.Store) (now1 now2 fresh1 fresh2 : Nat) :
    (BatchFixRecreated.process_all_orgs false now2 fresh2
        (BatchFixRecreated.process_all_orgs false now1 fresh1 s).store).store
      = (BatchFixRecreated.process_all_orgs false now1 fresh1 s).store ∧
    (BatchFixRecreated.process_all_orgs false now2 fresh2
        (BatchFixRecreated.process_all_orgs false now1 fresh1 s).store).stats.batches_created
      = 0 ∧
    (BatchFixRecreated.process_all_orgs false now2 fresh2
        (BatchFixRecreated.process_all_orgs false now1 fresh1 s).store).stats.question_runs_updated
      = 0 ∧
    ((BatchFixRecreated.process_all_orgs false now1 fresh1 s).stats.errors = [] →
      BatchFixRecreated.get_orgs_with_unbatched_runs
        (BatchFixRecreated.process_all_orgs false now1 fresh1 s).store = []) := by
  obtain ⟨hev, hnoelig, herrmem, -⟩ :=
    BatchFixRecreated.process_org_list_spec now1
      (BatchFixRecreated.get_orgs_with_unbatched_runs s)
      ⟨s, SensoBatch.emptyStats, fresh1⟩
  unfold BatchFixRecreated.process_all_orgs
  have hpred : ∀ o ∈ BatchFixRecreated.get_orgs_with_unbatched_runs
      (BatchFixRecreated.process_org_list false now1
        (BatchFixRecreated.get_orgs_with_unbatched_runs s)
        ⟨s, SensoBatch.emptyStats, fresh1⟩).store,
      BatchFixRecreated.check_org_exists
        (BatchFixRecreated.process_org_list false now1
          (BatchFixRecreated.get_orgs_with_unbatched_runs s)
          ⟨s, SensoBatch.emptyStats, fresh1⟩).store o = false ∨
      SensoBatch.noEligibleUnbatched
        (BatchFixRecreated.process_org_list false now1
          (BatchFixRecreated.get_orgs_with_unbatched_runs s)
          ⟨s, SensoBatch.emptyStats, fresh1⟩).store o := by
    intro o ho
    have hos := BatchFixRecreated.enum_mono_back hev o ho
    by_cases hchk : BatchFixRecreated.check_org_exists s o = true
    · exact Or.inr (hnoelig o hos hchk)
    · refine Or.inl ?_
      rw [BatchFixRecreated.check_org_exists_congr hev.2.1 o]
      exact Bool.eq_false_iff.mpr hchk
  obtain ⟨hst, hbc, hru, -⟩ :=
    BatchFixRecreated.process_org_list_noop now2
      (BatchFixRecreated.get_orgs_with_unbatched_runs
        (BatchFixRecreated.process_org_list false now1
          (BatchFixRecreated.get_orgs_with_unbatched_runs s)
          ⟨s, SensoBatch.emptyStats, fresh1⟩).store)
      ⟨(BatchFixRecreated.process_org_list false now1
          (BatchFixRecreated.get_orgs_with_unbatched_runs s)
          ⟨s, SensoBatch.emptyStats, fresh1⟩).store, SensoBatch.emptyStats, fresh2⟩
      hpred
  refine ⟨hst, hbc, hru, ?_⟩
  intro herr0
  rw [List.eq_nil_iff_forall_not_mem]
  intro o ho
  have hos := BatchFixRecreated.enum_mono_back hev o ho
  by_cases hchk : BatchFixRecreated.check_org_exists s o = true
  · have hne := hnoelig o hos hchk
    rw [BatchFixRecreated.mem_get_orgs_with_unbatched_runs] at ho
    obtain ⟨qr, hqr, hb, hd, gq, hgq, hid, hgd, hgo⟩ := ho
    exact hne qr hqr hd ⟨gq, hgq, hid, hgo, hgd⟩ hb
  · have hmemerr := herrmem o hos (Bool.eq_false_iff.mpr hchk)
    rw [herr0] at hmemerr
    cases hmemerr

/-- Witness for C2 over `c5Store0`: after the first real pass, the second
pass creates no batch; the first pass succeeds, so the second enumeration
is empty. -/
theorem c2_second_pass_is_noop_witness :
    (BatchFixRecreated.process_all_orgs false 864000001 2000
        (BatchFixRecreated.process_all_orgs false 864000000 1000
          SensoBatch.c5Store0).store).stats.batches_created = 0 ∧
    BatchFixRecreated.get_orgs_with_unbatched_runs
      (BatchFixRecreated.process_all_orgs false 864000000 1000
        SensoBatch.c5Store0).store = [] :=
  ⟨(c2_second_pass_is_noop SensoBatch.c5Store0 864000000 864000001 1000 2000).2.1,
   (c2_second_pass_is_noop SensoBatch.c5Store0 864000000 864000001 1000 2000).2.2.2
     (by decide)⟩

namespace BatchFixRecreated

open SensoBatch

theorem process_org_stats_indep (now : Nat) (s : Store) (stats1 stats2 : Stats)
    (fresh org : Nat) :
    (process_org false now s stats1 fresh org).store
      = (process_org false now s stats2 fresh org).store ∧
    (process_org false now s stats1 fresh org).fresh
      = (process_org false now s stats2 fresh org).fresh ∧
    (process_org false now s stats1 fresh org).ok
      = (process_org false now s stats2 fresh org).ok := by
  by_cases hcheck : check_org_exists s org = true
  · by_cases hne : get_unbatched_runs_for_org s org = []
    · rw [process_org_empty_eq false now s stats1 fresh org hcheck hne,
        process_org_empty_eq false now s stats2 fresh org hcheck hne]
      exact ⟨rfl, rfl, rfl⟩
    · rw [process_org_real_cases now s stats1 fresh org hcheck hne,
        process_org_real_cases now s stats2 fresh org hcheck hne]
      exact ⟨rfl, rfl, rfl⟩
  · rw [process_org_fail_eq false now s stats1 fresh org (Bool.eq_false_iff.mpr hcheck),
      process_org_fail_eq false now s stats2 fresh org (Bool.eq_false_iff.mpr hcheck)]
    exact ⟨rfl, rfl, rfl⟩

theorem process_org_list_store_indep (now : Nat) :
    ∀ (l : List Nat) (rs1 rs2 : RunState), rs1.store = rs2.store → rs1.fresh = rs2.fresh →
      (process_org_list false now l rs1).store = (process_org_list false now l rs2).store ∧
      (process_org_list false now l rs1).fresh = (process_org_list false now l rs2).fresh := by
  intro l
  induction l with
  | nil =>
    intro rs1 rs2 hs hf
    exact ⟨hs, hf⟩
  | cons o rest ih =>
    intro rs1 rs2 hs hf
    rw [process_org_list, process_org_list]
    have hind := process_org_stats_indep now rs1.store rs1.stats rs2.stats rs1.fresh o
    rw [hs, hf] at hind
    by_cases hok : (process_org false now rs2.store rs1.stats rs2.fresh o).ok = true
    · have hok2 : (process_org false now rs2.store rs2.stats rs2.fresh o).ok = true := by
        rw [← hind.2.2]
        exact hok
      show (process_org_list false now rest
          ⟨if (process_org false now rs1.store rs1.stats rs1.fresh o).ok = true
            then (process_org false now rs1.store rs1.stats rs1.fresh o).store
            else rs1.store,
            (process_org false now rs1.store rs1.stats rs1.fresh o).stats,
            (process_org false now rs1.store rs1.stats rs1.fresh o).fresh⟩).store
          = _ ∧ _
      rw [hs, hf]
      refine ih _ _ ?_ ?_
      · show (if (process_org false now rs2.store rs1.stats rs2.fresh o).ok = true
            then (process_org false now rs2.store rs1.stats rs2.fresh o).store
            else rs2.store)
          = (if (process_org false now rs2.store rs2.stats rs2.fresh o).ok = true
            then (process_org false now rs2.store rs2.stats rs2.fresh o).store
            else rs2.store)
        rw [if_pos hok, if_pos hok2, hind.1]
      · exact hind.2.1
    · have hok2 : ¬(process_org false now rs2.store rs2.stats rs2.fresh o).ok = true := by
        rw [← hind.2.2]
        exact hok
      show (process_org_list false now rest
          ⟨if (process_org false now rs1.store rs1.stats rs1.fresh o).ok = true
            then (process_org false now rs1.store rs1.stats rs1.fresh o).store
            else rs1.store,
            (process_org false now rs1.store rs1.stats rs1.fresh o).stats,
            (process_org false now rs1.store rs1.stats rs1.fresh o).fresh⟩).store
          = _ ∧ _
      rw [hs, hf]
      refine ih _ _ ?_ ?_
      · show (if (process_org false now rs2.store rs1.stats rs2.fresh o).ok = true
            then (process_org false now rs2.store rs1.stats rs2.fresh o).store
            else rs2.store)
          = (if (process_org false now rs2.store rs2.stats rs2.fresh o).ok = true
            then (process_org false now rs2.store rs2.stats rs2.fresh o).store
            else rs2.store)
        rw [if_neg hok, if_neg hok2]
      · exact hind.2.1

end BatchFixRecreated

namespace BatchFixRecreated

open SensoBatch

theorem process_org_list_filter (now : Nat) :
    ∀ (l : List Nat) (rs : RunState),
      (process_org_list false now l rs).store
        = (process_org_list false now
            (l.filter (fun o => check_org_exists rs.store o)) rs).store ∧
      (process_org_list false now l rs).fresh
        = (process_org_list false now
            (l.filter (fun o => check_org_exists rs.store o)) rs).fresh := by
  intro l
  induction l with
  | nil =>
    intro rs
    exact ⟨rfl, rfl⟩
  | cons o rest ih =>
    intro rs
    rw [List.filter_cons]
    by_cases hchk : check_org_exists rs.store o = true
    · rw [if_pos hchk]
      have hok := (process_org_light now rs.store rs.stats rs.fresh o hchk).1
      rw [process_org_list_cons_ok now o rest rs hok,
        process_org_list_cons_ok now o (rest.filter (fun o' => check_org_exists rs.store o'))
          rs hok]
      have hlist : rest.filter (fun o' => check_org_exists
            (process_org false now rs.store rs.stats rs.fresh o).store o')
          = rest.filter (fun o' => check_org_exists rs.store o') :=
        List.filter_congr (fun o' _ => check_org_exists_congr
          (process_org_tables false now rs.store rs.stats rs.fresh o).2.1 o')
      obtain ⟨ih1, ih2⟩ := ih ⟨(process_org false now rs.store rs.stats rs.fresh o).store,
        (process_org false now rs.store rs.stats rs.fresh o).stats,
        (process_org false now rs.store rs.stats rs.fresh o).fresh⟩
      constructor
      · refine ih1.trans ?_
        show (process_org_list false now (rest.filter (fun o' => check_org_exists
            (process_org false now rs.store rs.stats rs.fresh o).store o'))
          ⟨(process_org false now rs.store rs.stats rs.fresh o).store,
            (process_org false now rs.store rs.stats rs.fresh o).stats,
            (process_org false now rs.store rs.stats rs.fresh o).fresh⟩).store = _
        rw [hlist]
      · refine ih2.trans ?_
        show (process_org_list false now (rest.filter (fun o' => check_org_exists
            (process_org false now rs.store rs.stats rs.fresh o).store o'))
          ⟨(process_org false now rs.store rs.stats rs.fresh o).store,
            (process_org false now rs.store rs.stats rs.fresh o).stats,
            (process_org false now rs.store rs.stats rs.fresh o).fresh⟩).fresh = _
        rw [hlist]
    · rw [if_neg hchk]
      rw [process_org_list_cons_fail now o rest rs (Bool.eq_false_iff.mpr hchk)]
      obtain ⟨ih1, ih2⟩ := ih ⟨rs.store,
        { rs.stats with errors := rs.stats.errors ++ [orgMissingMsg o] }, rs.fresh⟩
      have hind := process_org_list_store_indep now
        (rest.filter (fun o' => check_org_exists rs.store o'))
        ⟨rs.store, { rs.stats with errors := rs.stats.errors ++ [orgMissingMsg o] },
          rs.fresh⟩ rs rfl rfl
      constructor
      · refine Eq.trans ?_ hind.1
        show (process_org_list false now rest
            ⟨rs.store, { rs.stats with errors := rs.stats.errors ++ [orgMissingMsg o] },
              rs.fresh⟩).store
          = (process_org_list false now (rest.filter (fun o' => check_org_exists rs.store o'))
            ⟨rs.store, { rs.stats with errors := rs.stats.errors ++ [orgMissingMsg o] },
              rs.fresh⟩).store
        exact ih1
      · refine Eq.trans ?_ hind.2
        show (process_org_list false now rest
            ⟨rs.store, { rs.stats with errors := rs.stats.errors ++ [orgMissingMsg o] },
              rs.fresh⟩).fresh
          = (process_org_list false now (rest.filter (fun o' => check_org_exists rs.store o'))
            ⟨rs.store, { rs.stats with errors := rs.stats.errors ++ [orgMissingMsg o] },
              rs.fresh⟩).fresh
        exact ih2

end BatchFixRecreated

/-- C7: in a real-mode pass over a list of org ids, a failing org (one with
no live row in `orgs`) leaves no storage effect — the final store equals the
one obtained by processing only the non-failing orgs — while its failure is
recorded with the org id in the error list, and every non-failing org of
the list is still fully processed (no eligible unbatched run of it
remains). -/
theorem c7_failure_isolation (now fresh : Nat) (s : SensoBatch.Store) (l : List Nat) :
    (BatchFixRecreated.process_org_list false now l
        ⟨s, SensoBatch.emptyStats, fresh⟩).store
      = (BatchFixRecreated.process_org_list false now
          (l.filter (fun o => BatchFixRecreated.check_org_exists s o))
          ⟨s, SensoBatch.emptyStats, fresh⟩).store ∧
    (∀ o ∈ l, BatchFixRecreated.check_org_exists s o = false →
      BatchFixRecreated.orgMissingMsg o ∈
        (BatchFixRecreated.process_org_list false now l
          ⟨s, SensoBatch.emptyStats, fresh⟩).stats.errors) ∧
    (∀ o ∈ l, BatchFixRecreated.check_org_exists s o = true →
      SensoBatch.noEligibleUnbatched
        (BatchFixRecreated.process_org_list false now l
          ⟨s, SensoBatch.emptyStats, fresh⟩).store o) := by
  obtain ⟨-, hnoelig, herrmem, -⟩ :=
    BatchFixRecreated.process_org_list_spec now l ⟨s, SensoBatch.emptyStats, fresh⟩
  exact ⟨(BatchFixRecreated.process_org_list_filter now l
      ⟨s, SensoBatch.emptyStats, fresh⟩).1,
    herrmem, hnoelig⟩

/-- Witness for C7 over `w7Store` with org list `[1, 2, 3]` where org 2 has
no row in `orgs`. -/
theorem c7_failure_isolation_witness :
    (BatchFixRecreated.process_org_list false 500000 [1, 2, 3]
        ⟨SensoBatch.w7Store, SensoBatch.emptyStats, 1000⟩).store
      = (BatchFixRecreated.process_org_list false 500000
          ([1, 2, 3].filter (fun o => BatchFixRecreated.check_org_exists SensoBatch.w7Store o))
          ⟨SensoBatch.w7Store, SensoBatch.emptyStats, 1000⟩).store ∧
    BatchFixRecreated.orgMissingMsg 2 ∈
      (BatchFixRecreated.process_org_list false 500000 [1, 2, 3]
        ⟨SensoBatch.w7Store, SensoBatch.emptyStats, 1000⟩).stats.errors :=
  ⟨(c7_failure_isolation 500000 1000 SensoBatch.w7Store [1, 2, 3]).1,
   (c7_failure_isolation 500000 1000 SensoBatch.w7Store [1, 2, 3]).2.1 2
     (by decide) (by decide)⟩

/-- C6 (amended): both enumerations return strictly sorted (hence ordered
and deduplicated) entity ids, and both fetches are filters of the run
table, but the eligibility conditions differ from the claim: the org
variant applies the deletion filters on run and owning question yet no
scope-kind condition, while the network variant requires scope `network`
yet applies no deletion condition on either table. -/
theorem c6_enumeration_amended (s : SensoBatch.Store) :
    List.Sorted (· < ·) (BatchFixRecreated.get_orgs_with_unbatched_runs s) ∧
    (∀ o : Nat, o ∈ BatchFixRecreated.get_orgs_with_unbatched_runs s ↔
      ∃ qr ∈ s.question_runs, qr.batch_id = none ∧ qr.deleted_at = none ∧
        ∃ gq ∈ s.geo_questions, gq.geo_question_id = qr.geo_question_id ∧
          gq.deleted_at = none ∧ gq.org_id = some o) ∧
    (∀ (o : Nat) (r : SensoBatch.QuestionRun),
      r ∈ BatchFixRecreated.get_unbatched_runs_for_org s o ↔
        r ∈ s.question_runs ∧ r.batch_id = none ∧ r.deleted_at = none ∧
        ∃ gq ∈ s.geo_questions, gq.geo_question_id = r.geo_question_id ∧
          gq.org_id = some o ∧ gq.deleted_at = none) ∧
    List.Sorted (· < ·) (NetworkBatchFix.get_networks_with_unbatched_runs s) ∧
    (∀ n : Nat, n ∈ NetworkBatchFix.get_networks_with_unbatched_runs s ↔
      ∃ qr ∈ s.question_runs, qr.batch_id = none ∧
        ∃ gq ∈ s.geo_questions, gq.geo_question_id = qr.geo_question_id ∧
          gq.scope = "network" ∧ gq.network_id = some n) ∧
    (∀ (n : Nat) (r : SensoBatch.QuestionRun),
      r ∈ NetworkBatchFix.get_unbatched_runs_for_network s n ↔
        r ∈ s.question_runs ∧ r.batch_id = none ∧
        ∃ gq ∈ s.geo_questions, gq.geo_question_id = r.geo_question_id ∧
          gq.network_id = some n ∧ gq.scope = "network") :=
  ⟨BatchFixRecreated.sorted_get_orgs_with_unbatched_runs s,
   fun _ => BatchFixRecreated.mem_get_orgs_with_unbatched_runs,
   fun _ _ => BatchFixRecreated.mem_get_unbatched_runs_for_org,
   NetworkBatchFix.sorted_get_networks_with_unbatched_runs s,
   fun _ => NetworkBatchFix.mem_get_networks_with_unbatched_runs,
   fun _ _ => NetworkBatchFix.mem_get_unbatched_runs_for_network⟩

/-- C8 (amended): in real mode both run-update functions touch only the
run table, set `batch_id` and `updated_at` on exactly the hit rows and
leave every other row and field unchanged, and return the number of hit
rows; but the hit condition differs from the claim in the network variant:
the org variant restricts to non-deleted listed runs, while the network
variant hits every listed run, soft-deleted or not.  In dry-run mode both
return the requested count with the store unmutated. -/
theorem c8_assignment_amended (s : SensoBatch.Store) (now bid : Nat)
    (runs : List SensoBatch.QuestionRun) :
    ((BatchFixRecreated.update_question_runs_with_batch false s now runs bid).2.geo_questions
        = s.geo_questions ∧
      (BatchFixRecreated.update_question_runs_with_batch false s now runs bid).2.question_run_batches
        = s.question_run_batches ∧
      (BatchFixRecreated.update_question_runs_with_batch false s now runs bid).2.orgs = s.orgs ∧
      (BatchFixRecreated.update_question_runs_with_batch false s now runs bid).2.networks
        = s.networks) ∧
    List.Forall₂ (fun r r' =>
        (r.question_run_id ∈ runs.map (fun q => q.question_run_id) ∧ r.deleted_at = none →
          r' = { r with batch_id := some bid, updated_at := now }) ∧
        (¬(r.question_run_id ∈ runs.map (fun q => q.question_run_id) ∧ r.deleted_at = none) →
          r' = r))
      s.question_runs
      (BatchFixRecreated.update_question_runs_with_batch false s now runs bid).2.question_runs ∧
    (BatchFixRecreated.update_question_runs_with_batch false s now runs bid).1
      = s.question_runs.countP (fun r =>
          decide (r.question_run_id ∈ runs.map (fun q => q.question_run_id) ∧
            r.deleted_at = none)) ∧
    BatchFixRecreated.update_question_runs_with_batch true s now runs bid = (runs.length, s) ∧
    ((NetworkBatchFix.update_question_runs_with_batch false s now runs bid).2.geo_questions
        = s.geo_questions ∧
      (NetworkBatchFix.update_question_runs_with_batch false s now runs bid).2.question_run_batches
        = s.question_run_batches ∧
      (NetworkBatchFix.update_question_runs_with_batch false s now runs bid).2.orgs = s.orgs ∧
      (NetworkBatchFix.update_question_runs_with_batch false s now runs bid).2.networks
        = s.networks) ∧
    List.Forall₂ (fun r r' =>
        (r.question_run_id ∈ runs.map (fun q => q.question_run_id) →
          r' = { r with batch_id := some bid, updated_at := now }) ∧
        (r.question_run_id ∉ runs.map (fun q => q.question_run_id) → r' = r))
      s.question_runs
      (NetworkBatchFix.update_question_runs_with_batch false s now runs bid).2.question_runs ∧
    (NetworkBatchFix.update_question_runs_with_batch false s now runs bid).1
      = s.question_runs.countP (fun r =>
          decide (r.question_run_id ∈ runs.map (fun q => q.question_run_id))) ∧
    NetworkBatchFix.update_question_runs_with_batch true s now runs bid = (runs.length, s) := by
  refine ⟨⟨rfl, rfl, rfl, rfl⟩, ?_, ?_, rfl, ⟨rfl, rfl, rfl, rfl⟩, ?_, ?_, rfl⟩
  · show List.Forall₂ _ s.question_runs
      (s.question_runs.map (BatchFixRecreated.assignRun now bid
        (runs.map (fun r => r.question_run_id))))
    rw [List.forall₂_map_right_iff]
    apply SensoBatch.forall₂_refl_of
    intro r _
    by_cases hc : r.question_run_id ∈ runs.map (fun q => q.question_run_id) ∧
        r.deleted_at = none
    · refine ⟨fun _ => ?_, fun hnc => absurd hc hnc⟩
      simp only [BatchFixRecreated.assignRun, BatchFixRecreated.runHit, decide_eq_true_eq]
      rw [if_pos hc]
    · refine ⟨fun hcc => absurd hcc hc, fun _ => ?_⟩
      simp only [BatchFixRecreated.assignRun, BatchFixRecreated.runHit, decide_eq_true_eq]
      rw [if_neg hc]
  · show (s.question_runs.filter (BatchFixRecreated.runHit
        (runs.map (fun r => r.question_run_id)))).length = _
    rw [← List.countP_eq_length_filter]
    rfl
  · show List.Forall₂ _ s.question_runs
      (s.question_runs.map (NetworkBatchFix.assignRun now bid
        (runs.map (fun r => r.question_run_id))))
    rw [List.forall₂_map_right_iff]
    apply SensoBatch.forall₂_refl_of
    intro r _
    by_cases hc : r.question_run_id ∈ runs.map (fun q => q.question_run_id)
    · refine ⟨fun _ => ?_, fun hnc => absurd hc hnc⟩
      simp only [NetworkBatchFix.assignRun, NetworkBatchFix.runHit, decide_eq_true_eq]
      rw [if_pos hc]
    · refine ⟨fun hcc => absurd hcc hc, fun _ => ?_⟩
      simp only [NetworkBatchFix.assignRun, NetworkBatchFix.runHit, decide_eq_true_eq]
      rw [if_neg hc]
  · show (s.question_runs.filter (NetworkBatchFix.runHit
        (runs.map (fun r => r.question_run_id)))).length = _
    rw [← List.countP_eq_length_filter]
    rfl
